import Mathlib

/-!
Shallow embedding of `server/socket.js` (DevCollab).

The server keeps four global maps —
`userSocketMap : socketId → username`, `roomCodeMap : roomId → code`,
`roomUsers : roomId → Set username`, `roomMessages : roomId → Message[]` —
plus the socket.io adapter's `rooms : roomId → Set socketId`.  Handlers for
`join`, `code-change`, `sync-code`, `send-message`, `fetch-messages` and
`disconnecting` mutate this state and emit events.  Each handler is embedded
as a pure function `ServerState → … → ServerState × List Emit`.
`Date.now()` is passed in explicitly as a `Nat` argument.
-/

/-- A chat message as built by the SEND_MESSAGE handler:
`{ id: Date.now(), username, message, timestamp }`.  The timestamp string is
represented by the same clock reading used for the id. -/
structure Message where
  id : Nat
  username : String
  message : String
  timestamp : Nat
deriving Repr, DecidableEq

/-- Where an emit goes: `io.to(roomId)` is `room roomId none`,
`socket.to(roomId)` is `room roomId (some senderId)` (sender excluded),
`socket.emit` / `io.to(socketId)` is `direct socketId`. -/
inductive Target where
  | room (roomId : String) (excludeId : Option String)
  | direct (socketId : String)
deriving Repr, DecidableEq

/-- Event payloads used by the server. `disconnected` carries the username as
read from `userSocketMap`, which can be absent (`undefined` in JS). -/
inductive Payload where
  | joined (clients : List (String × String)) (username : String) (socketId : String)
  | code (code : String)
  | disconnected (socketId : String) (username : Option String)
  | message (m : Message)
  | messages (ms : List Message)
deriving Repr, DecidableEq

/-- One `emit` call: target, event name, payload. -/
structure Emit where
  target : Target
  event : String
  payload : Payload
deriving Repr, DecidableEq

/-- The server's global mutable state.  The four JS object maps become
functions into `Option`; the socket.io adapter's room map becomes an
association list (its keys are unique in JS, being `Map` keys), where a
room's socket set is a duplicate-free list. -/
structure ServerState where
  userSocketMap : String → Option String
  roomCodeMap : String → Option String
  roomUsers : String → Option (List String)
  roomMessages : String → Option (List Message)
  rooms : List (String × List String)

/-- The empty server state at startup. -/
def initState : ServerState :=
  ⟨fun _ => none, fun _ => none, fun _ => none, fun _ => none, []⟩

/-- `io.sockets.adapter.rooms.get(roomId)` (empty list when absent). -/
def lookupRoom (st : ServerState) (roomId : String) : List String :=
  match st.rooms.find? (fun p => decide (p.1 = roomId)) with
  | some p => p.2
  | none => []

/-- `roomUsers[roomId]` viewed as a list (empty when the room is absent). -/
def usersOf (st : ServerState) (roomId : String) : List String :=
  (st.roomUsers roomId).getD []

/-- Replace the socket list stored for `roomId` (creating the entry if the
adapter has no such room yet). -/
def setRoomList (rooms : List (String × List String)) (roomId : String)
    (l : List String) : List (String × List String) :=
  if rooms.any (fun p => decide (p.1 = roomId)) then
    rooms.map (fun p => if p.1 = roomId then (roomId, l) else p)
  else rooms ++ [(roomId, l)]

/-- `socket.join(roomId)`: add the socket to the room's set. -/
def joinRoom (st : ServerState) (sid roomId : String) : ServerState :=
  let cur := lookupRoom st roomId
  { st with rooms := setRoomList st.rooms roomId (if sid ∈ cur then cur else cur ++ [sid]) }

/-- `socket.leave(roomId)`: remove the socket from the room's set. -/
def leaveRoom (st : ServerState) (sid roomId : String) : ServerState :=
  { st with rooms := st.rooms.map (fun p =>
      if p.1 = roomId then (p.1, p.2.filter (fun x => decide (x ≠ sid))) else p) }

/-- On actual disconnect socket.io removes the socket from every room. -/
def removeFromAllRooms (st : ServerState) (sid : String) : ServerState :=
  { st with rooms := st.rooms.map (fun p => (p.1, p.2.filter (fun x => decide (x ≠ sid)))) }

/-- `userSocketMap[sid] = username`. -/
def mapSocket (st : ServerState) (sid username : String) : ServerState :=
  { st with userSocketMap := fun s => if s = sid then some username else st.userSocketMap s }

/-- `delete userSocketMap[sid]`. -/
def unmapSocket (st : ServerState) (sid : String) : ServerState :=
  { st with userSocketMap := fun s => if s = sid then none else st.userSocketMap s }

/-- One `uniqueUsers.set(username, {socketId, username})` step of
`getAllConnectedClients`: a JS `Map` overwrites the value at an existing key
in place, otherwise appends (insertion order preserved).  Pairs are stored as
(username, socketId). -/
def mapSetClient (acc : List (String × String)) (username sid : String) :
    List (String × String) :=
  if acc.any (fun p => decide (p.1 = username)) then
    acc.map (fun p => if p.1 = username then (username, sid) else p)
  else acc ++ [(username, sid)]

/-- The `forEach` of `getAllConnectedClients`: sockets whose
`userSocketMap` entry is falsy (`undefined` or the empty string) are
skipped by `if (username)`. -/
def collectClients (umap : String → Option String) :
    List String → List (String × String) → List (String × String)
  | [], acc => acc
  | sid :: rest, acc =>
      match umap sid with
      | some username =>
          if username ≠ "" then collectClients umap rest (mapSetClient acc username sid)
          else collectClients umap rest acc
      | none => collectClients umap rest acc

/-- `getAllConnectedClients(io, roomId)`: list of `{socketId, username}`
(one per username). -/
def getAllConnectedClients (st : ServerState) (roomId : String) :
    List (String × String) :=
  (collectClients st.userSocketMap (lookupRoom st roomId) []).map (fun p => (p.2, p.1))

/-- One iteration of the JOIN handler's eviction loop: an existing socket in
the room that maps to the same username (and is not the joining socket
itself) is made to leave the room and its registry entry is deleted. -/
def evictStep (roomId username newSid : String) (st : ServerState) (ex : String) :
    ServerState :=
  if st.userSocketMap ex = some username ∧ ex ≠ newSid then
    unmapSocket (leaveRoom st ex roomId) ex
  else st

/-- The JOIN handler (`socket.on(ACTIONS.JOIN, …)`): evict stale sockets for
the username, register and join, add the username to `roomUsers`, broadcast
`joined` to the room, unicast the stored code to the joiner if truthy, and
lazily create the room's message log. -/
def handleJoin (st : ServerState) (sid roomId username : String) :
    ServerState × List Emit :=
  let st1 := (lookupRoom st roomId).foldl (evictStep roomId username sid) st
  let st2 := mapSocket st1 sid username
  let st3 := joinRoom st2 sid roomId
  let cur := (st3.roomUsers roomId).getD []
  let newUsers := if username ∈ cur then cur else cur ++ [username]
  let st4 := { st3 with roomUsers := fun r =>
      if r = roomId then some newUsers else st3.roomUsers r }
  let clients := getAllConnectedClients st4 roomId
  let joinedEmit : Emit := ⟨Target.room roomId none, "joined",
      Payload.joined clients username sid⟩
  let codeEmits : List Emit :=
    match st4.roomCodeMap roomId with
    | some c => if c ≠ "" then [⟨Target.direct sid, "code-change", Payload.code c⟩] else []
    | none => []
  let st5 :=
    match st4.roomMessages roomId with
    | some _ => st4
    | none => { st4 with roomMessages := fun r =>
        if r = roomId then some [] else st4.roomMessages r }
  (st5, joinedEmit :: codeEmits)

/-- JS coerces an `undefined` object key to the string "undefined". -/
def jsKey : Option String → String
  | some s => s
  | none => "undefined"

/-- The CODE_CHANGE handler with the payload fields kept optional, as they
arrive from the wire: `roomCodeMap[roomId] = code` (an `undefined` roomId
indexes the key "undefined"), then `socket.to(roomId).emit`. -/
def handleCodeChangeRaw (st : ServerState) (sid : String)
    (roomId code : Option String) : ServerState × List Emit :=
  ({ st with roomCodeMap := fun r =>
      if r = jsKey roomId then code else st.roomCodeMap r },
   [⟨Target.room (jsKey roomId) (some sid), "code-change",
     Payload.code (code.getD "")⟩])

/-- The CODE_CHANGE handler on a well-formed payload. -/
def handleCodeChange (st : ServerState) (sid roomId code : String) :
    ServerState × List Emit :=
  handleCodeChangeRaw st sid (some roomId) (some code)

/-- The SYNC_CODE handler: store the code if one was supplied
(`code !== undefined`), then unicast the room's code to the target iff the
stored value is truthy (non-empty). -/
def handleSyncCode (st : ServerState) (targetSid roomId : String)
    (code : Option String) : ServerState × List Emit :=
  let st1 :=
    match code with
    | some c => { st with roomCodeMap := fun r =>
        if r = roomId then some c else st.roomCodeMap r }
    | none => st
  let emits : List Emit :=
    match st1.roomCodeMap roomId with
    | some c => if c ≠ "" then [⟨Target.direct targetSid, "code-change", Payload.code c⟩] else []
    | none => []
  (st1, emits)

/-- The SEND_MESSAGE handler: build `{id: Date.now(), username, message,
timestamp}`, push it, truncate to the last 100 via `slice(-100)` when the
length exceeds 100, and broadcast `receive-message` to the whole room. -/
def handleSendMessage (st : ServerState) (roomId message username : String)
    (now : Nat) : ServerState × List Emit :=
  let m : Message := ⟨now, username, message, now⟩
  let old := (st.roomMessages roomId).getD []
  let l := old ++ [m]
  let l2 := if l.length > 100 then l.drop (l.length - 100) else l
  ({ st with roomMessages := fun r => if r = roomId then some l2 else st.roomMessages r },
   [⟨Target.room roomId none, "receive-message", Payload.message m⟩])

/-- The FETCH_MESSAGES handler: unicast the room's log (empty when absent)
back to the requester under the same event name. -/
def handleFetchMessages (st : ServerState) (sid roomId : String) :
    ServerState × List Emit :=
  (st, [⟨Target.direct sid, "fetch-messages",
         Payload.messages ((st.roomMessages roomId).getD [])⟩])

/-- `hasOtherConnections` as computed by the disconnecting handler for one
room: some socket other than `sid` in the room has the same
`userSocketMap` value (`===` on possibly-undefined values). -/
def hasOtherConnections (st : ServerState) (roomId sid : String) : Bool :=
  (lookupRoom st roomId).any
    (fun s => decide (s ≠ sid ∧ st.userSocketMap s = st.userSocketMap sid))

/-- One room's processing inside the disconnecting handler: skip the
socket's personal room; if no sibling connection for the same username
remains, emit `disconnected` (sender excluded by `socket.to`) and remove the
username from `roomUsers`, deleting the room's users, code and messages
together when membership becomes empty. -/
def discStep (sid : String) (acc : ServerState × List Emit) (roomId : String) :
    ServerState × List Emit :=
  let st := acc.1
  if roomId = sid then acc
  else if hasOtherConnections st roomId sid then acc
  else
    let username := st.userSocketMap sid
    let e : Emit := ⟨Target.room roomId (some sid), "disconnected",
        Payload.disconnected sid username⟩
    let st' :=
      match st.roomUsers roomId with
      | some users =>
          let users' :=
            match username with
            | some u => users.filter (fun x => decide (x ≠ u))
            | none => users
          if users'.length = 0 then
            { st with
              roomUsers := fun r => if r = roomId then none else st.roomUsers r,
              roomCodeMap := fun r => if r = roomId then none else st.roomCodeMap r,
              roomMessages := fun r => if r = roomId then none else st.roomMessages r }
          else
            { st with roomUsers := fun r =>
                if r = roomId then some users' else st.roomUsers r }
      | none => st
    (st', acc.2 ++ [e])

/-- The rooms a socket is currently in (`socket.rooms` minus the personal
room, which the handler skips by the `roomId !== socket.id` guard kept in
`discStep`). -/
def roomsOf (st : ServerState) (sid : String) : List String :=
  (st.rooms.filter (fun p => decide (sid ∈ p.2))).map (fun p => p.1)

/-- The `disconnecting` handler: process every room the socket is in, then
`delete userSocketMap[socket.id]`. -/
def handleDisconnecting (st : ServerState) (sid : String) :
    ServerState × List Emit :=
  let r := (roomsOf st sid).foldl (discStep sid) (st, [])
  (unmapSocket r.1 sid, r.2)

/-- A full disconnect: the `disconnecting` handler followed by socket.io
removing the socket from every room. -/
def disconnect (st : ServerState) (sid : String) : ServerState × List Emit :=
  let r := handleDisconnecting st sid
  (removeFromAllRooms r.1 sid, r.2)

/-- The set of sockets an emitted event is delivered to, resolved against
the adapter state. -/
def deliveredTo (st : ServerState) : Target → List String
  | Target.room roomId none => lookupRoom st roomId
  | Target.room roomId (some ex) => (lookupRoom st roomId).filter (fun s => decide (s ≠ ex))
  | Target.direct sid => [sid]

/-! ### Frame lemmas for the state components -/

@[simp] lemma rooms_mapSocket (st : ServerState) (s u : String) :
    (mapSocket st s u).rooms = st.rooms := rfl

@[simp] lemma rooms_unmapSocket (st : ServerState) (s : String) :
    (unmapSocket st s).rooms = st.rooms := rfl

@[simp] lemma userSocketMap_leaveRoom (st : ServerState) (s r : String) :
    (leaveRoom st s r).userSocketMap = st.userSocketMap := rfl

@[simp] lemma userSocketMap_joinRoom (st : ServerState) (s r : String) :
    (joinRoom st s r).userSocketMap = st.userSocketMap := rfl

@[simp] lemma roomUsers_leaveRoom (st : ServerState) (s r : String) :
    (leaveRoom st s r).roomUsers = st.roomUsers := rfl

@[simp] lemma roomUsers_unmapSocket (st : ServerState) (s : String) :
    (unmapSocket st s).roomUsers = st.roomUsers := rfl

@[simp] lemma roomUsers_mapSocket (st : ServerState) (s u : String) :
    (mapSocket st s u).roomUsers = st.roomUsers := rfl

@[simp] lemma roomUsers_joinRoom (st : ServerState) (s r : String) :
    (joinRoom st s r).roomUsers = st.roomUsers := rfl

lemma lookupRoom_congr {st1 st2 : ServerState} (r : String)
    (h : st1.rooms = st2.rooms) : lookupRoom st1 r = lookupRoom st2 r := by
  unfold lookupRoom; rw [h]

@[simp] lemma lookupRoom_unmapSocket (st : ServerState) (s r : String) :
    lookupRoom (unmapSocket st s) r = lookupRoom st r := rfl

@[simp] lemma lookupRoom_mapSocket (st : ServerState) (s u r : String) :
    lookupRoom (mapSocket st s u) r = lookupRoom st r := rfl

/-- `find?` by key commutes with a key-preserving per-entry rewrite of the
room table. -/
lemma find?_key_map (l : List (String × List String)) (r : String)
    (f : String × List String → String × List String)
    (hf : ∀ p, (f p).1 = p.1) :
    (l.map f).find? (fun p => decide (p.1 = r)) =
      (l.find? (fun p => decide (p.1 = r))).map f := by
  induction l with
  | nil => rfl
  | cons a t ih =>
      simp only [List.map_cons, List.find?_cons, hf]
      by_cases h : a.1 = r
      · simp [h]
      · simp [h, ih]

lemma lookupRoom_leaveRoom (st : ServerState) (ex r0 r' : String) :
    lookupRoom (leaveRoom st ex r0) r' =
      if r' = r0 then (lookupRoom st r').filter (fun x => decide (x ≠ ex))
      else lookupRoom st r' := by
  unfold lookupRoom leaveRoom
  rw [find?_key_map _ _ _ (by intro p; by_cases h : p.1 = r0 <;> simp [h])]
  cases hf : st.rooms.find? (fun p => decide (p.1 = r')) with
  | none => simp [hf]
  | some p =>
      have hp : p.1 = r' := by
        have := List.find?_some hf
        simpa using this
      simp only [hf, Option.map_some']
      by_cases h : r' = r0
      · rw [if_pos h, if_pos (hp.trans h)]
      · rw [if_neg h, if_neg (fun hc => h (hp ▸ hc))]

lemma lookupRoom_removeFromAllRooms (st : ServerState) (sid r' : String) :
    lookupRoom (removeFromAllRooms st sid) r' =
      (lookupRoom st r').filter (fun x => decide (x ≠ sid)) := by
  unfold lookupRoom removeFromAllRooms
  rw [find?_key_map _ _ _ (by intro p; rfl)]
  cases hf : st.rooms.find? (fun p => decide (p.1 = r')) with
  | none => simp [hf]
  | some p => simp [hf]

lemma lookupRoom_joinRoom (st : ServerState) (sid r0 r' : String) :
    lookupRoom (joinRoom st sid r0) r' =
      if r' = r0 then
        (if sid ∈ lookupRoom st r0 then lookupRoom st r0 else lookupRoom st r0 ++ [sid])
      else lookupRoom st r' := by
  unfold joinRoom setRoomList
  dsimp only
  by_cases hany : st.rooms.any (fun p => decide (p.1 = r0))
  · rw [if_pos hany]
    unfold lookupRoom
    dsimp only
    rw [find?_key_map _ _ _ (by intro p; by_cases h : p.1 = r0 <;> simp [h])]
    cases hf : st.rooms.find? (fun p => decide (p.1 = r')) with
    | none =>
        -- the key r' is absent; if r' = r0 this contradicts hany
        by_cases h : r' = r0
        · subst h
          rcases List.any_eq_true.mp hany with ⟨q, hq, hq1⟩
          have : st.rooms.find? (fun p => decide (p.1 = r')) ≠ none := by
            intro hn
            have := List.find?_eq_none.mp hn q hq
            exact this hq1
          exact absurd hf this
        · simp [hf, h]
    | some p =>
        have hp : p.1 = r' := by
          have := List.find?_some hf
          simpa using this
        simp only [hf, Option.map_some']
        by_cases h : r' = r0
        · rw [if_pos (hp.trans h), if_pos h]
        · rw [if_neg (fun hc => h (hp ▸ hc)), if_neg h]
  · rw [if_neg hany]
    have habs : st.rooms.find? (fun p => decide (p.1 = r0)) = none := by
      rw [List.find?_eq_none]
      intro q hq hq1
      exact hany (List.any_eq_true.mpr ⟨q, hq, hq1⟩)
    unfold lookupRoom
    dsimp only
    rw [List.find?_append]
    by_cases h : r' = r0
    · subst h
      rw [habs]
      simp [habs]
    · cases hf : st.rooms.find? (fun p => decide (p.1 = r')) with
      | none => simp [hf, h, Ne.symm h]
      | some p => simp [hf, h]

/-! ### The JOIN eviction loop -/

lemma evictStep_roomCodeMap (r0 u nsid : String) (st : ServerState) (ex : String) :
    (evictStep r0 u nsid st ex).roomCodeMap = st.roomCodeMap := by
  unfold evictStep; split <;> rfl

lemma evictStep_roomUsers (r0 u nsid : String) (st : ServerState) (ex : String) :
    (evictStep r0 u nsid st ex).roomUsers = st.roomUsers := by
  unfold evictStep; split <;> rfl

lemma evictStep_roomMessages (r0 u nsid : String) (st : ServerState) (ex : String) :
    (evictStep r0 u nsid st ex).roomMessages = st.roomMessages := by
  unfold evictStep; split <;> rfl

lemma foldl_evict_roomCodeMap (r0 u nsid : String) (L : List String) (st : ServerState) :
    (L.foldl (evictStep r0 u nsid) st).roomCodeMap = st.roomCodeMap := by
  induction L generalizing st with
  | nil => rfl
  | cons a t ih => rw [List.foldl_cons, ih, evictStep_roomCodeMap]

lemma foldl_evict_roomUsers (r0 u nsid : String) (L : List String) (st : ServerState) :
    (L.foldl (evictStep r0 u nsid) st).roomUsers = st.roomUsers := by
  induction L generalizing st with
  | nil => rfl
  | cons a t ih => rw [List.foldl_cons, ih, evictStep_roomUsers]

lemma foldl_evict_roomMessages (r0 u nsid : String) (L : List String) (st : ServerState) :
    (L.foldl (evictStep r0 u nsid) st).roomMessages = st.roomMessages := by
  induction L generalizing st with
  | nil => rfl
  | cons a t ih => rw [List.foldl_cons, ih, evictStep_roomMessages]

lemma evictStep_userSocketMap_ne (r0 u nsid : String) (st : ServerState)
    (ex s : String) (h : s ≠ ex) :
    (evictStep r0 u nsid st ex).userSocketMap s = st.userSocketMap s := by
  unfold evictStep; split
  · simp [unmapSocket, leaveRoom, h]
  · rfl

lemma foldl_evict_userSocketMap_newSid (r0 u nsid : String) (L : List String)
    (st : ServerState) :
    (L.foldl (evictStep r0 u nsid) st).userSocketMap nsid = st.userSocketMap nsid := by
  induction L generalizing st with
  | nil => rfl
  | cons a t ih =>
      rw [List.foldl_cons, ih]
      by_cases h : nsid = a
      · subst h
        unfold evictStep
        split
        · rename_i hc; exact absurd rfl hc.2
        · rfl
      · exact evictStep_userSocketMap_ne r0 u nsid st a nsid h

/-- `evictStep` only removes sockets from room `r0`. -/
lemma evictStep_lookupRoom_ne (r0 u nsid : String) (st : ServerState)
    (ex r' : String) (h : r' ≠ r0) :
    lookupRoom (evictStep r0 u nsid st ex) r' = lookupRoom st r' := by
  unfold evictStep; split
  · rw [lookupRoom_unmapSocket, lookupRoom_leaveRoom, if_neg h]
  · rfl

lemma foldl_evict_lookupRoom_ne (r0 u nsid : String) (L : List String)
    (st : ServerState) (r' : String) (h : r' ≠ r0) :
    lookupRoom (L.foldl (evictStep r0 u nsid) st) r' = lookupRoom st r' := by
  induction L generalizing st with
  | nil => rfl
  | cons a t ih => rw [List.foldl_cons, ih, evictStep_lookupRoom_ne _ _ _ _ _ _ h]

/-- Once a socket is both unmapped and out of the room, the rest of the
eviction loop never brings it back. -/
lemma evict_fold_stable (r0 u nsid c1 : String) :
    ∀ (L : List String) (st : ServerState),
      st.userSocketMap c1 = none → c1 ∉ lookupRoom st r0 →
      ((L.foldl (evictStep r0 u nsid) st).userSocketMap c1 = none ∧
       c1 ∉ lookupRoom (L.foldl (evictStep r0 u nsid) st) r0) := by
  intro L
  induction L with
  | nil => exact fun st h1 h2 => ⟨h1, h2⟩
  | cons a t ih =>
      intro st h1 h2
      rw [List.foldl_cons]
      apply ih
      · unfold evictStep; split
        · simp only [unmapSocket, leaveRoom]
          by_cases h : c1 = a <;> simp [h, h1]
        · exact h1
      · unfold evictStep; split
        · rw [lookupRoom_unmapSocket, lookupRoom_leaveRoom, if_pos rfl]
          intro hc
          exact h2 (List.mem_filter.mp hc).1
        · exact h2

/-- A socket in the room that carries the joining username (and is not the
joining socket) ends the eviction loop unmapped and out of the room. -/
lemma evict_fold_clears (r0 u nsid c1 : String) (h1n : c1 ≠ nsid) :
    ∀ (L : List String) (st : ServerState),
      c1 ∈ L → st.userSocketMap c1 = some u →
      ((L.foldl (evictStep r0 u nsid) st).userSocketMap c1 = none ∧
       c1 ∉ lookupRoom (L.foldl (evictStep r0 u nsid) st) r0) := by
  intro L
  induction L with
  | nil => intro st h; exact absurd h (List.not_mem_nil c1)
  | cons a t ih =>
      intro st hmem hmap
      rw [List.foldl_cons]
      by_cases h : a = c1
      · subst h
        have hstep : evictStep r0 u nsid st a = unmapSocket (leaveRoom st a r0) a := by
          unfold evictStep; rw [if_pos ⟨hmap, h1n⟩]
        rw [hstep]
        apply evict_fold_stable
        · simp [unmapSocket]
        · rw [lookupRoom_unmapSocket, lookupRoom_leaveRoom, if_pos rfl]
          intro hc
          have := (List.mem_filter.mp hc).2
          simp at this
      · have hmem' : c1 ∈ t := by
          cases List.mem_cons.mp hmem with
          | inl hh => exact absurd hh.symm h
          | inr hh => exact hh
        have hmap' : (evictStep r0 u nsid st a).userSocketMap c1 = some u := by
          rw [evictStep_userSocketMap_ne _ _ _ _ _ _ (fun hc => h hc.symm)]
          exact hmap
        exact ih _ hmem' hmap'

/-! ### Soundness of getAllConnectedClients -/

lemma collectClients_sound (umap : String → Option String) :
    ∀ (L : List String) (acc : List (String × String)),
      (∀ p ∈ acc, umap p.2 = some p.1 ∧ p.1 ≠ "") →
      ∀ p ∈ collectClients umap L acc, umap p.2 = some p.1 ∧ p.1 ≠ "" := by
  intro L
  induction L with
  | nil => intro acc hacc p hp; exact hacc p hp
  | cons s t ih =>
      intro acc hacc p hp
      unfold collectClients at hp
      cases hu : umap s with
      | none => rw [hu] at hp; exact ih acc hacc p hp
      | some name =>
          rw [hu] at hp
          dsimp only at hp
          by_cases hname : name ≠ ""
          · rw [if_pos hname] at hp
            refine ih _ ?_ p hp
            intro q hq
            unfold mapSetClient at hq
            split at hq
            · obtain ⟨q', hq', hfq⟩ := List.mem_map.mp hq
              by_cases h : q'.1 = name
              · rw [if_pos h] at hfq
                rw [← hfq]
                exact ⟨hu, hname⟩
              · rw [if_neg h] at hfq
                rw [← hfq]
                exact hacc q' hq'
            · cases List.mem_append.mp hq with
              | inl hl => exact hacc q hl
              | inr hr =>
                  have : q = (name, s) := by simpa using hr
                  rw [this]
                  exact ⟨hu, hname⟩
          · rw [if_neg hname] at hp
            exact ih acc hacc p hp

/-- Every entry of a `joined` client list is a (socketId, username) pair
whose socket is registered to that (truthy) username. -/
lemma clients_mapped (st : ServerState) (r : String) :
    ∀ p ∈ getAllConnectedClients st r,
      st.userSocketMap p.1 = some p.2 ∧ p.2 ≠ "" := by
  intro p hp
  unfold getAllConnectedClients at hp
  obtain ⟨q, hq, hpq⟩ := List.mem_map.mp hp
  have h := collectClients_sound st.userSocketMap (lookupRoom st r) []
    (by intro x hx; exact absurd hx (List.not_mem_nil x)) q hq
  rw [← hpq]
  exact h

/-! ### Components of handleJoin -/

@[simp] lemma roomCodeMap_mapSocket (st : ServerState) (s u : String) :
    (mapSocket st s u).roomCodeMap = st.roomCodeMap := rfl

@[simp] lemma roomCodeMap_joinRoom (st : ServerState) (s r : String) :
    (joinRoom st s r).roomCodeMap = st.roomCodeMap := rfl

@[simp] lemma roomMessages_mapSocket (st : ServerState) (s u : String) :
    (mapSocket st s u).roomMessages = st.roomMessages := rfl

@[simp] lemma roomMessages_joinRoom (st : ServerState) (s r : String) :
    (joinRoom st s r).roomMessages = st.roomMessages := rfl

lemma handleJoin_userSocketMap (st : ServerState) (sid r u s : String) :
    (handleJoin st sid r u).1.userSocketMap s =
      if s = sid then some u
      else ((lookupRoom st r).foldl (evictStep r u sid) st).userSocketMap s := by
  unfold handleJoin
  dsimp only
  split <;> rfl

lemma handleJoin_rooms (st : ServerState) (sid r u : String) :
    (handleJoin st sid r u).1.rooms =
      (joinRoom (mapSocket ((lookupRoom st r).foldl (evictStep r u sid) st) sid u)
        sid r).rooms := by
  unfold handleJoin
  dsimp only
  split <;> rfl

lemma handleJoin_lookupRoom (st : ServerState) (sid r u r' : String) :
    lookupRoom (handleJoin st sid r u).1 r' =
      if r' = r then
        (if sid ∈ lookupRoom ((lookupRoom st r).foldl (evictStep r u sid) st) r
         then lookupRoom ((lookupRoom st r).foldl (evictStep r u sid) st) r
         else lookupRoom ((lookupRoom st r).foldl (evictStep r u sid) st) r ++ [sid])
      else lookupRoom st r' := by
  rw [lookupRoom_congr r' (handleJoin_rooms st sid r u), lookupRoom_joinRoom]
  by_cases h : r' = r
  · rw [if_pos h, if_pos h]
    rfl
  · rw [if_neg h, if_neg h, lookupRoom_mapSocket]
    exact foldl_evict_lookupRoom_ne r u sid _ st r' h

lemma handleJoin_roomCodeMap (st : ServerState) (sid r u : String) :
    (handleJoin st sid r u).1.roomCodeMap = st.roomCodeMap := by
  unfold handleJoin
  dsimp only
  split <;> exact foldl_evict_roomCodeMap r u sid _ st

lemma handleJoin_roomUsers (st : ServerState) (sid r u r' : String) :
    (handleJoin st sid r u).1.roomUsers r' =
      if r' = r then
        some (if u ∈ usersOf st r then usersOf st r else usersOf st r ++ [u])
      else st.roomUsers r' := by
  unfold handleJoin usersOf
  dsimp only
  have hfold : ((lookupRoom st r).foldl (evictStep r u sid) st).roomUsers = st.roomUsers :=
    foldl_evict_roomUsers r u sid _ st
  split <;>
    simp only [roomUsers_joinRoom, roomUsers_mapSocket, hfold]

lemma handleJoin_roomMessages_self (st : ServerState) (sid r u : String) :
    (handleJoin st sid r u).1.roomMessages r = some ((st.roomMessages r).getD []) := by
  unfold handleJoin
  dsimp only
  have hfold : ((lookupRoom st r).foldl (evictStep r u sid) st).roomMessages = st.roomMessages :=
    foldl_evict_roomMessages r u sid _ st
  split
  next x heq =>
    have heq' : st.roomMessages r = some x := by rw [← hfold]; exact heq
    rw [heq', Option.getD_some]
    exact heq
  next heq =>
    have heq' : st.roomMessages r = none := by rw [← hfold]; exact heq
    rw [heq']
    simp

lemma getAllConnectedClients_congr {st1 st2 : ServerState} (rId : String)
    (h1 : st1.userSocketMap = st2.userSocketMap) (h2 : st1.rooms = st2.rooms) :
    getAllConnectedClients st1 rId = getAllConnectedClients st2 rId := by
  unfold getAllConnectedClients lookupRoom
  rw [h1, h2]

lemma handleJoin_snd (st : ServerState) (sid r u : String) :
    (handleJoin st sid r u).2 =
      (⟨Target.room r none, "joined",
        Payload.joined
          (getAllConnectedClients
            (joinRoom (mapSocket ((lookupRoom st r).foldl (evictStep r u sid) st) sid u) sid r) r)
          u sid⟩ : Emit) ::
      (match st.roomCodeMap r with
       | some c => if c ≠ "" then [⟨Target.direct sid, "code-change", Payload.code c⟩] else []
       | none => []) := by
  unfold handleJoin
  dsimp only
  have hcode : ((lookupRoom st r).foldl (evictStep r u sid) st).roomCodeMap = st.roomCodeMap :=
    foldl_evict_roomCodeMap r u sid _ st
  simp only [roomCodeMap_joinRoom, roomCodeMap_mapSocket, hcode]
  rfl

/-- The `joined` member list computed by a join, expressed on the join's
result state (which only differs in fields the client list ignores). -/
lemma handleJoin_getAllConnectedClients (st : ServerState) (sid r u rId : String) :
    getAllConnectedClients (handleJoin st sid r u).1 rId =
      getAllConnectedClients
        (joinRoom (mapSocket ((lookupRoom st r).foldl (evictStep r u sid) st) sid u) sid r)
        rId := by
  apply getAllConnectedClients_congr
  · funext s
    rw [handleJoin_userSocketMap]
    rfl
  · exact handleJoin_rooms st sid r u

/-! ### Demo scenarios used by concrete witnesses and counterexamples -/

/-- A state in which socket "s1" has joined room "r1" as "alice". -/
def demoOne : ServerState := (handleJoin initState "s1" "r1" "alice").1

/-- A state in which "s1" (alice) and "s2" (bob) are in room "r1". -/
def demoTwo : ServerState := (handleJoin demoOne "s2" "r1" "bob").1

/-- alice rejoining "r1" from a second socket "s2" while "s1" still holds
the username. -/
def evictScenario : ServerState × List Emit := handleJoin demoOne "s2" "r1" "alice"

/-! ### C1 -/

/-- C1 (counterexample): the claim says no operation creates room code or
message state for a room with no present members.  But the CODE_CHANGE
handler stores `roomCodeMap[roomId] = code` unconditionally: sending a
code change for room "r9", which has no members, creates a code buffer
while `roomUsers` has no entry for "r9". -/
theorem c1_counterexample :
    (handleCodeChange initState "s1" "r9" "x").1.roomCodeMap "r9" = some "x"
  ∧ (handleCodeChange initState "s1" "r9" "x").1.roomUsers "r9" = none
  ∧ usersOf (handleCodeChange initState "s1" "r9" "x").1 "r9" = [] := by
  refine ⟨by decide, by decide, by decide⟩

/-! ### C7 -/

/-- C7 (counterexample): the claim says an event with a missing required
field is a no-op on shared room state.  A CODE_CHANGE whose payload lacks
`roomId` stores the code under the JS-coerced key "undefined", mutating
`roomCodeMap`. -/
theorem c7_counterexample :
    (handleCodeChangeRaw initState "s1" none (some "x")).1.roomCodeMap "undefined" = some "x"
  ∧ initState.roomCodeMap "undefined" = none := by
  refine ⟨by decide, rfl⟩

/-- C7 (amended): a CODE_CHANGE with a missing `roomId` raises no error but
is not a no-op: the code is stored under the coerced room key "undefined".
No other component of the state, and no other room key, is touched. -/
theorem c7_amended (st : ServerState) (sid c : String) :
    (handleCodeChangeRaw st sid none (some c)).1.roomCodeMap "undefined" = some c
  ∧ (handleCodeChangeRaw st sid none (some c)).1.roomUsers = st.roomUsers
  ∧ (handleCodeChangeRaw st sid none (some c)).1.roomMessages = st.roomMessages
  ∧ (handleCodeChangeRaw st sid none (some c)).1.userSocketMap = st.userSocketMap
  ∧ (handleCodeChangeRaw st sid none (some c)).1.rooms = st.rooms
  ∧ (∀ r, r ≠ "undefined" →
      (handleCodeChangeRaw st sid none (some c)).1.roomCodeMap r = st.roomCodeMap r) := by
  refine ⟨by simp [handleCodeChangeRaw, jsKey], rfl, rfl, rfl, rfl, ?_⟩
  intro r hr
  simp [handleCodeChangeRaw, jsKey, hr]

theorem c7_witness :
    (handleCodeChangeRaw initState "s1" none (some "x")).1.roomCodeMap "undefined" = some "x"
  ∧ (handleCodeChangeRaw initState "s1" none (some "x")).1.roomCodeMap "r1" =
      initState.roomCodeMap "r1" :=
  ⟨(c7_amended initState "s1" "x").1,
   (c7_amended initState "s1" "x").2.2.2.2.2 "r1" (by decide)⟩

/-! ### C8 -/

/-- C8 (counterexample): the claim says a `syncCode` with a supplied code
stores it and then unicasts the room's current code to the target.  The
unicast is guarded by JS truthiness (`if (roomCodeMap[roomId])`), so
supplying the empty string stores it but sends nothing. -/
theorem c8_counterexample :
    (handleSyncCode initState "t1" "r1" (some "")).1.roomCodeMap "r1" = some ""
  ∧ (handleSyncCode initState "t1" "r1" (some "")).2 = [] := by
  refine ⟨by decide, by decide⟩

/-- C8 (amended): a joiner is unicast the stored code snapshot provided it
is non-empty (truthy); `syncCode` with a supplied code stores it without any
room broadcast, and unicasts the room's current code to the target iff the
stored value is non-empty. -/
theorem c8_amended :
    (∀ (st : ServerState) (sid r u c : String), st.roomCodeMap r = some c → c ≠ "" →
      (⟨Target.direct sid, "code-change", Payload.code c⟩ : Emit) ∈ (handleJoin st sid r u).2)
  ∧ (∀ (st : ServerState) (tgt r c : String),
      (handleSyncCode st tgt r (some c)).1.roomCodeMap r = some c
    ∧ (c ≠ "" → (handleSyncCode st tgt r (some c)).2 =
        [⟨Target.direct tgt, "code-change", Payload.code c⟩])
    ∧ (c = "" → (handleSyncCode st tgt r (some c)).2 = [])
    ∧ (∀ e ∈ (handleSyncCode st tgt r (some c)).2, ∃ s, e.target = Target.direct s)) := by
  constructor
  · intro st sid r u c hc hne
    rw [handleJoin_snd, hc]
    dsimp only
    rw [if_pos hne]
    exact List.mem_cons_of_mem _ (List.mem_singleton.mpr rfl)
  · intro st tgt r c
    unfold handleSyncCode
    dsimp only
    refine ⟨by simp, ?_, ?_, ?_⟩
    · intro hne
      simp [hne]
    · intro he
      simp [he]
    · intro e he
      simp only [if_pos rfl] at he
      by_cases hc : c = ""
      · simp [hc] at he
      · simp [hc] at he
        rw [he]
        exact ⟨tgt, rfl⟩

theorem c8_witness :
    ((⟨Target.direct "s2", "code-change", Payload.code "x"⟩ : Emit) ∈
      (handleJoin (handleCodeChange demoOne "s1" "r1" "x").1 "s2" "r1" "bob").2)
  ∧ (handleSyncCode initState "t1" "r1" (some "x")).2 =
      [⟨Target.direct "t1", "code-change", Payload.code "x"⟩] :=
  ⟨c8_amended.1 (handleCodeChange demoOne "s1" "r1" "x").1 "s2" "r1" "bob" "x"
      (by decide) (by decide),
   (c8_amended.2 initState "t1" "r1" "x").2.1 (by decide)⟩

/-! ### C9 -/

/-- C9 (counterexample): message ids are `Date.now()`, so two messages sent
to the same room within the same millisecond (`now = 7`) are distinct
messages with the same id — ids are not unique within a room. -/
theorem c9_counterexample :
    (handleSendMessage (handleSendMessage initState "r1" "hi" "alice" 7).1
        "r1" "yo" "bob" 7).1.roomMessages "r1" =
      some [⟨7, "alice", "hi", 7⟩, ⟨7, "bob", "yo", 7⟩]
  ∧ (⟨7, "alice", "hi", 7⟩ : Message) ≠ ⟨7, "bob", "yo", 7⟩
  ∧ (⟨7, "alice", "hi", 7⟩ : Message).id = (⟨7, "bob", "yo", 7⟩ : Message).id := by
  refine ⟨by decide, by decide, rfl⟩

/-- C9 (amended): two messages produced by `sendMessage` at distinct
`Date.now()` readings have distinct ids; uniqueness holds only across
distinct millisecond ticks. -/
theorem c9_amended (st₁ st₂ : ServerState) (r₁ m₁ u₁ r₂ m₂ u₂ : String)
    (n₁ n₂ : Nat) (h : n₁ ≠ n₂) :
    ∀ e₁ ∈ (handleSendMessage st₁ r₁ m₁ u₁ n₁).2,
    ∀ e₂ ∈ (handleSendMessage st₂ r₂ m₂ u₂ n₂).2,
    ∀ msg₁ msg₂, e₁.payload = Payload.message msg₁ → e₂.payload = Payload.message msg₂ →
      msg₁.id ≠ msg₂.id := by
  intro e₁ he₁ e₂ he₂ msg₁ msg₂ hp₁ hp₂
  have h1 : e₁ = ⟨Target.room r₁ none, "receive-message",
      Payload.message ⟨n₁, u₁, m₁, n₁⟩⟩ := by
    simpa [handleSendMessage] using he₁
  have h2 : e₂ = ⟨Target.room r₂ none, "receive-message",
      Payload.message ⟨n₂, u₂, m₂, n₂⟩⟩ := by
    simpa [handleSendMessage] using he₂
  subst h1
  subst h2
  dsimp only at hp₁ hp₂
  injection hp₁ with hp₁
  injection hp₂ with hp₂
  rw [← hp₁, ← hp₂]
  exact h

theorem c9_witness :
    (1 : Nat) ≠ 2 ∧ (⟨1, "u", "a", 1⟩ : Message).id ≠ (⟨2, "v", "b", 2⟩ : Message).id :=
  ⟨by decide,
   c9_amended initState initState "r1" "a" "u" "r1" "b" "v" 1 2 (by decide)
     ⟨Target.room "r1" none, "receive-message", Payload.message ⟨1, "u", "a", 1⟩⟩ (by decide)
     ⟨Target.room "r1" none, "receive-message", Payload.message ⟨2, "v", "b", 2⟩⟩ (by decide)
     ⟨1, "u", "a", 1⟩ ⟨2, "v", "b", 2⟩ rfl rfl⟩

/-! ### C5 -/

/-- C5: a `codeChange` broadcast is delivered to every socket in the room
except the sender (the sender never receives its own echo), while a
`sendMessage` broadcast is delivered to every socket in the room, the
sender included. -/
theorem c5_broadcast_asymmetry :
    (∀ (st : ServerState) (sid r c : String),
        (handleCodeChange st sid r c).2 =
          [⟨Target.room r (some sid), "code-change", Payload.code c⟩]
      ∧ sid ∉ deliveredTo (handleCodeChange st sid r c).1 (Target.room r (some sid))
      ∧ ∀ x ∈ lookupRoom st r, x ≠ sid →
          x ∈ deliveredTo (handleCodeChange st sid r c).1 (Target.room r (some sid)))
  ∧ (∀ (st : ServerState) (r m u : String) (now : Nat),
        (handleSendMessage st r m u now).2 =
          [⟨Target.room r none, "receive-message", Payload.message ⟨now, u, m, now⟩⟩]
      ∧ deliveredTo (handleSendMessage st r m u now).1 (Target.room r none) = lookupRoom st r
      ∧ ∀ x ∈ lookupRoom st r,
          x ∈ deliveredTo (handleSendMessage st r m u now).1 (Target.room r none)) := by
  constructor
  · intro st sid r c
    refine ⟨rfl, ?_, ?_⟩
    · intro h
      have := (List.mem_filter.mp h).2
      simp at this
    · intro x hx hxs
      apply List.mem_filter.mpr
      exact ⟨hx, by simp [hxs]⟩
  · intro st r m u now
    refine ⟨rfl, rfl, ?_⟩
    intro x hx
    exact hx

theorem c5_witness :
    "s2" ∉ deliveredTo (handleCodeChange demoTwo "s2" "r1" "x").1 (Target.room "r1" (some "s2"))
  ∧ "s1" ∈ deliveredTo (handleCodeChange demoTwo "s2" "r1" "x").1 (Target.room "r1" (some "s2"))
  ∧ "s2" ∈ deliveredTo (handleSendMessage demoTwo "r1" "hi" "bob" 5).1 (Target.room "r1" none) :=
  ⟨(c5_broadcast_asymmetry.1 demoTwo "s2" "r1" "x").2.1,
   (c5_broadcast_asymmetry.1 demoTwo "s2" "r1" "x").2.2 "s1" (by decide) (by decide),
   (c5_broadcast_asymmetry.2 demoTwo "r1" "hi" "bob" 5).2.2 "s2" (by decide)⟩

/-! ### C3 -/

/-- C3 (counterexample): the claim says the evicted connection receives a
forced-leave notice.  When "s2" rejoins as "alice", "s1" is evicted (its
registry entry is gone and it is out of the room) but none of the events
produced by the join is delivered to "s1": the code sends it nothing. -/
theorem c3_counterexample :
    evictScenario.1.userSocketMap "s1" = none
  ∧ "s1" ∉ lookupRoom evictScenario.1 "r1"
  ∧ evictScenario.2 ≠ []
  ∧ ∀ e ∈ evictScenario.2, "s1" ∉ deliveredTo evictScenario.1 e.target := by
  refine ⟨by decide, by decide, by decide, by decide⟩

/-- C3 (amended): joining with a username held by another socket in the room
evicts that socket — it is unregistered, removed from the room, and absent
from the `joined` member list — but it receives no forced-leave notice: no
event of the join is delivered to it. -/
theorem c3_amended (st : ServerState) (c2 r u c1 : String)
    (h12 : c1 ≠ c2) (hin : c1 ∈ lookupRoom st r) (hmap : st.userSocketMap c1 = some u) :
    (handleJoin st c2 r u).1.userSocketMap c1 = none
  ∧ c1 ∉ lookupRoom (handleJoin st c2 r u).1 r
  ∧ (∀ p ∈ getAllConnectedClients (handleJoin st c2 r u).1 r, p.1 ≠ c1)
  ∧ (∀ e ∈ (handleJoin st c2 r u).2, c1 ∉ deliveredTo (handleJoin st c2 r u).1 e.target) := by
  have hev := evict_fold_clears r u c2 c1 h12 (lookupRoom st r) st hin hmap
  have hmap' : (handleJoin st c2 r u).1.userSocketMap c1 = none := by
    rw [handleJoin_userSocketMap, if_neg h12]
    exact hev.1
  have hnotin : c1 ∉ lookupRoom (handleJoin st c2 r u).1 r := by
    rw [handleJoin_lookupRoom, if_pos rfl]
    split
    · exact hev.2
    · intro hc
      cases List.mem_append.mp hc with
      | inl h => exact hev.2 h
      | inr h => exact h12 (by simpa using h)
  refine ⟨hmap', hnotin, ?_, ?_⟩
  · intro p hp
    intro hpc
    have h := (clients_mapped _ _ p hp).1
    rw [hpc, hmap'] at h
    exact Option.noConfusion h
  · intro e he
    rw [handleJoin_snd] at he
    cases List.mem_cons.mp he with
    | inl h =>
        rw [h]
        exact hnotin
    | inr h =>
        have : e.target = Target.direct c2 := by
          revert h
          cases st.roomCodeMap r with
          | none => intro h; exact absurd h (List.not_mem_nil e)
          | some c =>
              dsimp only
              split
              · intro h
                rw [List.mem_singleton.mp h]
              · intro h; exact absurd h (List.not_mem_nil e)
        rw [this]
        intro hc
        exact h12 (by simpa [deliveredTo] using hc)

theorem c3_witness :
    (handleJoin demoOne "s2" "r1" "alice").1.userSocketMap "s1" = none
  ∧ "s1" ∉ lookupRoom (handleJoin demoOne "s2" "r1" "alice").1 "r1"
  ∧ "s1" ∉ deliveredTo (handleJoin demoOne "s2" "r1" "alice").1 (Target.room "r1" none) :=
  ⟨(c3_amended demoOne "s2" "r1" "alice" "s1" (by decide) (by decide) (by decide)).1,
   (c3_amended demoOne "s2" "r1" "alice" "s1" (by decide) (by decide) (by decide)).2.1,
   (c3_amended demoOne "s2" "r1" "alice" "s1" (by decide) (by decide) (by decide)).2.2.2
     ⟨Target.room "r1" none, "joined",
      Payload.joined (getAllConnectedClients (handleJoin demoOne "s2" "r1" "alice").1 "r1")
        "alice" "s2"⟩
     (by rw [handleJoin_snd, handleJoin_getAllConnectedClients]; exact List.mem_cons_self _ _)⟩

/-! ### The disconnecting handler: emitted events -/

lemma discStep_userSocketMap (sid : String) (acc : ServerState × List Emit) (rid : String) :
    (discStep sid acc rid).1.userSocketMap = acc.1.userSocketMap := by
  unfold discStep
  dsimp only
  split
  · rfl
  split
  · rfl
  split
  · split <;> rfl
  · rfl

lemma discStep_snd (sid : String) (acc : ServerState × List Emit) (rid : String) :
    (discStep sid acc rid).2 = acc.2 ∨
    (discStep sid acc rid).2 = acc.2 ++
      [⟨Target.room rid (some sid), "disconnected",
        Payload.disconnected sid (acc.1.userSocketMap sid)⟩] := by
  unfold discStep
  dsimp only
  split
  · exact Or.inl rfl
  split
  · exact Or.inl rfl
  · exact Or.inr rfl

lemma disc_fold_emits (sid : String) :
    ∀ (L : List String) (st0 : ServerState) (es0 : List Emit),
      ∀ e ∈ (L.foldl (discStep sid) (st0, es0)).2,
        e ∈ es0 ∨ ∃ rid, e = ⟨Target.room rid (some sid), "disconnected",
            Payload.disconnected sid (st0.userSocketMap sid)⟩ := by
  intro L
  induction L with
  | nil => intro st0 es0 e he; exact Or.inl he
  | cons a t ih =>
      intro st0 es0 e he
      rw [List.foldl_cons] at he
      have hmap := discStep_userSocketMap sid (st0, es0) a
      have hrec := ih (discStep sid (st0, es0) a).1 (discStep sid (st0, es0) a).2 e he
      rcases hrec with h | ⟨rid, hrid⟩
      · rcases discStep_snd sid (st0, es0) a with hs | hs
        · rw [hs] at h
          exact Or.inl h
        · rw [hs] at h
          cases List.mem_append.mp h with
          | inl hl => exact Or.inl hl
          | inr hr =>
              right
              exact ⟨a, by simpa using hr⟩
      · right
        rw [hmap] at hrid
        exact ⟨rid, hrid⟩

/-- Every event emitted by a disconnect is a `disconnected` event carrying
the disconnecting socket's id and its registry entry at disconnect time. -/
lemma disconnect_emits (st : ServerState) (sid : String) :
    ∀ e ∈ (disconnect st sid).2, ∃ rid,
      e = ⟨Target.room rid (some sid), "disconnected",
        Payload.disconnected sid (st.userSocketMap sid)⟩ := by
  intro e he
  have h := disc_fold_emits sid (roomsOf st sid) st [] e he
  rcases h with h | h
  · exact absurd h (List.not_mem_nil e)
  · exact h

/-! ### C10 -/

/-- C10: eviction deletes the evicted socket's registry entry globally.  If
"c1" was also joined to another room `r'`, then after the eviction in `r` it
is still in `r'` but unregistered, so it no longer appears in `r'`'s member
lists, and any `disconnected` event from its later disconnect carries no
username. -/
theorem c10_global_unregistration (st : ServerState) (r r' c1 c2 u : String)
    (hrr : r' ≠ r) (h12 : c1 ≠ c2)
    (hin : c1 ∈ lookupRoom st r) (hmap : st.userSocketMap c1 = some u)
    (hin' : c1 ∈ lookupRoom st r') :
    (handleJoin st c2 r u).1.userSocketMap c1 = none
  ∧ c1 ∈ lookupRoom (handleJoin st c2 r u).1 r'
  ∧ (∀ p ∈ getAllConnectedClients (handleJoin st c2 r u).1 r', p.1 ≠ c1)
  ∧ (∀ e ∈ (disconnect (handleJoin st c2 r u).1 c1).2, ∀ s un,
        e.payload = Payload.disconnected s un → un = none) := by
  have hev := evict_fold_clears r u c2 c1 h12 (lookupRoom st r) st hin hmap
  have hmap' : (handleJoin st c2 r u).1.userSocketMap c1 = none := by
    rw [handleJoin_userSocketMap, if_neg h12]
    exact hev.1
  refine ⟨hmap', ?_, ?_, ?_⟩
  · rw [handleJoin_lookupRoom, if_neg hrr]
    exact hin'
  · intro p hp hpc
    have h := (clients_mapped _ _ p hp).1
    rw [hpc, hmap'] at h
    exact Option.noConfusion h
  · intro e he s un hp
    obtain ⟨rid, rfl⟩ := disconnect_emits _ _ e he
    dsimp only at hp
    injection hp with _ hun
    rw [← hun, hmap']

/-- `demoCross`: socket "s1" is "alice" in both rooms "rB" and "rA". -/
def demoCross : ServerState :=
  (handleJoin (handleJoin initState "s1" "rB" "alice").1 "s1" "rA" "alice").1

theorem c10_witness :
    (handleJoin demoCross "s2" "rA" "alice").1.userSocketMap "s1" = none
  ∧ "s1" ∈ lookupRoom (handleJoin demoCross "s2" "rA" "alice").1 "rB" :=
  ⟨(c10_global_unregistration demoCross "rA" "rB" "s1" "s2" "alice"
      (by decide) (by decide) (by decide) (by decide) (by decide)).1,
   (c10_global_unregistration demoCross "rA" "rB" "s1" "s2" "alice"
      (by decide) (by decide) (by decide) (by decide) (by decide)).2.1⟩

/-! ### C2: bounded message history -/

/-- The last (at most) 100 entries of a list, as `slice(-100)` keeps them. -/
def last100 {α : Type} (l : List α) : List α := l.drop (l.length - 100)

lemma handleSendMessage_roomMessages (st : ServerState) (r m u : String) (now : Nat) :
    (handleSendMessage st r m u now).1.roomMessages r =
      some (last100 (((st.roomMessages r).getD []) ++ [⟨now, u, m, now⟩])) := by
  unfold handleSendMessage last100
  dsimp only
  rw [if_pos rfl]
  congr 1
  split
  · rfl
  · next h =>
      rw [show (((st.roomMessages r).getD []) ++ [(⟨now, u, m, now⟩ : Message)]).length - 100 = 0
            from by omega,
          List.drop_zero]

lemma last100_last100_append {α : Type} (xs ys : List α) :
    last100 (last100 xs ++ ys) = last100 (xs ++ ys) := by
  unfold last100
  rw [← List.drop_append_of_le_length (Nat.sub_le xs.length 100)]
  rw [List.drop_drop (((xs ++ ys).drop (xs.length - 100)).length - 100)
        (xs.length - 100) (xs ++ ys)]
  have h : (xs.length - 100) + (((xs ++ ys).drop (xs.length - 100)).length - 100) =
      (xs ++ ys).length - 100 := by
    simp only [List.length_drop, List.length_append]
    omega
  rw [h]

lemma last100_append_long {α : Type} (xs ys : List α) (h : 100 ≤ ys.length) :
    last100 (xs ++ ys) = ys.drop (ys.length - 100) := by
  unfold last100
  rw [List.drop_append_eq_append_drop]
  rw [List.drop_eq_nil_of_le (by simp; omega), List.nil_append]
  congr 1
  simp only [List.length_append]
  omega

/-- A burst of SEND_MESSAGE events for one room; each entry is
(message text, username, Date.now() reading). -/
def sendBatch (st : ServerState) (r : String)
    (batch : List (String × String × Nat)) : ServerState :=
  batch.foldl (fun s x => (handleSendMessage s r x.1 x.2.1 x.2.2).1) st

/-- The messages the batch constructs, in send order. -/
def msgsOfBatch (batch : List (String × String × Nat)) : List Message :=
  batch.map (fun x => ⟨x.2.2, x.2.1, x.1, x.2.2⟩)

lemma sendBatch_roomMessages (r : String) :
    ∀ (batch : List (String × String × Nat)) (st : ServerState), batch ≠ [] →
      (sendBatch st r batch).roomMessages r =
        some (last100 (((st.roomMessages r).getD []) ++ msgsOfBatch batch)) := by
  intro batch
  induction batch with
  | nil => intro st h; exact absurd rfl h
  | cons x t ih =>
      intro st _
      by_cases ht : t = []
      · subst ht
        unfold sendBatch
        rw [List.foldl_cons, List.foldl_nil, handleSendMessage_roomMessages]
        rfl
      · unfold sendBatch
        rw [List.foldl_cons]
        have hrec := ih ((handleSendMessage st r x.1 x.2.1 x.2.2).1) ht
        unfold sendBatch at hrec
        rw [hrec, handleSendMessage_roomMessages, Option.getD_some,
            last100_last100_append, List.append_assoc]
        rfl

/-- C2: after every single `sendMessage` the room's retained log length is at
most 100, and after a batch of more than 100 sends a `fetchMessages` returns
exactly the last 100 of the sent messages in their original order. -/
theorem c2_bounded_history :
    (∀ (st : ServerState) (r m u : String) (now : Nat),
        (((handleSendMessage st r m u now).1.roomMessages r).getD []).length ≤ 100)
  ∧ (∀ (st : ServerState) (sid r : String) (batch : List (String × String × Nat)),
        100 < batch.length →
        (handleFetchMessages (sendBatch st r batch) sid r).2 =
          [⟨Target.direct sid, "fetch-messages",
            Payload.messages ((msgsOfBatch batch).drop (batch.length - 100))⟩]
      ∧ ((msgsOfBatch batch).drop (batch.length - 100)).length = 100) := by
  constructor
  · intro st r m u now
    rw [handleSendMessage_roomMessages, Option.getD_some]
    unfold last100
    rw [List.length_drop]
    omega
  · intro st sid r batch h
    have hne : batch ≠ [] := by
      intro hb
      rw [hb] at h
      simp at h
    have hmlen : (msgsOfBatch batch).length = batch.length := by
      unfold msgsOfBatch
      simp
    have hlen : 100 ≤ (msgsOfBatch batch).length := by omega
    constructor
    · unfold handleFetchMessages
      dsimp only
      rw [sendBatch_roomMessages r batch st hne, Option.getD_some,
          last100_append_long _ _ hlen, hmlen]
    · rw [List.length_drop, hmlen]
      omega

/-- 101 sends, one per millisecond tick. -/
def demoBatch : List (String × String × Nat) := (List.range 101).map (fun i => ("m", "u", i))

set_option maxRecDepth 4000 in
theorem c2_witness :
    100 < demoBatch.length
  ∧ ((handleFetchMessages (sendBatch initState "r1" demoBatch) "q" "r1").2 =
      [⟨Target.direct "q", "fetch-messages",
        Payload.messages ((msgsOfBatch demoBatch).drop (demoBatch.length - 100))⟩]
    ∧ ((msgsOfBatch demoBatch).drop (demoBatch.length - 100)).length = 100) :=
  ⟨by decide, c2_bounded_history.2 initState "q" "r1" demoBatch (by decide)⟩

/-! ### The disconnecting handler: per-room effects -/

@[simp] lemma roomUsers_removeFromAllRooms (st : ServerState) (s : String) :
    (removeFromAllRooms st s).roomUsers = st.roomUsers := rfl

@[simp] lemma roomCodeMap_removeFromAllRooms (st : ServerState) (s : String) :
    (removeFromAllRooms st s).roomCodeMap = st.roomCodeMap := rfl

@[simp] lemma roomMessages_removeFromAllRooms (st : ServerState) (s : String) :
    (removeFromAllRooms st s).roomMessages = st.roomMessages := rfl

@[simp] lemma roomCodeMap_unmapSocket (st : ServerState) (s : String) :
    (unmapSocket st s).roomCodeMap = st.roomCodeMap := rfl

@[simp] lemma roomMessages_unmapSocket (st : ServerState) (s : String) :
    (unmapSocket st s).roomMessages = st.roomMessages := rfl

/-- Does this emit carry a `disconnected` event addressed to room `r`? -/
def isDisconnectedTo (r : String) (e : Emit) : Bool :=
  match e.target with
  | Target.room rid _ => decide (e.event = "disconnected" ∧ rid = r)
  | Target.direct _ => false

lemma discStep_rooms (sid : String) (acc : ServerState × List Emit) (rid : String) :
    (discStep sid acc rid).1.rooms = acc.1.rooms := by
  unfold discStep
  dsimp only
  split
  · rfl
  split
  · rfl
  split
  · split <;> rfl
  · rfl

lemma discStep_roomUsers_ne (sid : String) (acc : ServerState × List Emit)
    (rid r : String) (h : r ≠ rid) :
    (discStep sid acc rid).1.roomUsers r = acc.1.roomUsers r := by
  unfold discStep
  dsimp only
  split
  · rfl
  split
  · rfl
  split
  · split <;> simp [h]
  · rfl

lemma discStep_roomCodeMap_ne (sid : String) (acc : ServerState × List Emit)
    (rid r : String) (h : r ≠ rid) :
    (discStep sid acc rid).1.roomCodeMap r = acc.1.roomCodeMap r := by
  unfold discStep
  dsimp only
  split
  · rfl
  split
  · rfl
  split
  · split <;> simp [h]
  · rfl

lemma discStep_roomMessages_ne (sid : String) (acc : ServerState × List Emit)
    (rid r : String) (h : r ≠ rid) :
    (discStep sid acc rid).1.roomMessages r = acc.1.roomMessages r := by
  unfold discStep
  dsimp only
  split
  · rfl
  split
  · rfl
  split
  · split <;> simp [h]
  · rfl

lemma disc_fold_rooms (sid : String) :
    ∀ (L : List String) (acc : ServerState × List Emit),
      ((L.foldl (discStep sid) acc).1).rooms = acc.1.rooms := by
  intro L
  induction L with
  | nil => intro acc; rfl
  | cons a t ih =>
      intro acc
      rw [List.foldl_cons, ih, discStep_rooms]

lemma disc_fold_userSocketMap (sid : String) :
    ∀ (L : List String) (acc : ServerState × List Emit),
      ((L.foldl (discStep sid) acc).1).userSocketMap = acc.1.userSocketMap := by
  intro L
  induction L with
  | nil => intro acc; rfl
  | cons a t ih =>
      intro acc
      rw [List.foldl_cons, ih, discStep_userSocketMap]

lemma isDisconnectedTo_room_ne (r a : String) (o : Option String) (ev : String)
    (x : Payload) (h : a ≠ r) :
    isDisconnectedTo r ⟨Target.room a o, ev, x⟩ = false := by
  simp [isDisconnectedTo, h]

/-- Rooms other than `r` contribute nothing to room `r`'s state or its
`disconnected` traffic. -/
lemma disc_fold_frame (sid r : String) :
    ∀ (L : List String) (acc : ServerState × List Emit), r ∉ L →
      ((L.foldl (discStep sid) acc).1.roomUsers r = acc.1.roomUsers r
     ∧ (L.foldl (discStep sid) acc).1.roomCodeMap r = acc.1.roomCodeMap r
     ∧ (L.foldl (discStep sid) acc).1.roomMessages r = acc.1.roomMessages r
     ∧ (L.foldl (discStep sid) acc).2.filter (isDisconnectedTo r) =
         acc.2.filter (isDisconnectedTo r)) := by
  intro L
  induction L with
  | nil => intro acc _; exact ⟨rfl, rfl, rfl, rfl⟩
  | cons a t ih =>
      intro acc hnot
      have hna : r ≠ a := fun hc => hnot (hc ▸ List.mem_cons_self a t)
      have hnt : r ∉ t := fun hc => hnot (List.mem_cons_of_mem a hc)
      rw [List.foldl_cons]
      obtain ⟨h1, h2, h3, h4⟩ := ih (discStep sid acc a) hnt
      refine ⟨?_, ?_, ?_, ?_⟩
      · rw [h1, discStep_roomUsers_ne _ _ _ _ hna]
      · rw [h2, discStep_roomCodeMap_ne _ _ _ _ hna]
      · rw [h3, discStep_roomMessages_ne _ _ _ _ hna]
      · rw [h4]
        rcases discStep_snd sid acc a with hs | hs
        · rw [hs]
        · rw [hs, List.filter_append]
          rw [show List.filter (isDisconnectedTo r)
                [(⟨Target.room a (some sid), "disconnected",
                  Payload.disconnected sid (acc.1.userSocketMap sid)⟩ : Emit)] = [] from by
              simp [List.filter, isDisconnectedTo_room_ne r a _ _ _ (fun hc => hna hc.symm)]]
          rw [List.append_nil]

lemma hasOtherConnections_congr {st1 st2 : ServerState} (r sid : String)
    (h1 : st1.rooms = st2.rooms) (h2 : st1.userSocketMap = st2.userSocketMap) :
    hasOtherConnections st1 r sid = hasOtherConnections st2 r sid := by
  unfold hasOtherConnections lookupRoom
  rw [h1, h2]

lemma discStep_at_room_hasOther (sid r : String) (acc : ServerState × List Emit)
    (hr : r ≠ sid) (hyes : hasOtherConnections acc.1 r sid = true) :
    discStep sid acc r = acc := by
  unfold discStep
  dsimp only
  rw [if_neg hr, if_pos hyes]

lemma discStep_at_room_noOther (sid r u : String) (acc : ServerState × List Emit)
    (hr : r ≠ sid) (hmap : acc.1.userSocketMap sid = some u)
    (hno : hasOtherConnections acc.1 r sid = false) :
    (discStep sid acc r).2 = acc.2 ++ [⟨Target.room r (some sid), "disconnected",
        Payload.disconnected sid (some u)⟩]
  ∧ u ∉ usersOf (discStep sid acc r).1 r := by
  unfold discStep
  dsimp only
  rw [if_neg hr, if_neg (by rw [hno]; exact Bool.false_ne_true), hmap]
  dsimp only
  constructor
  · rfl
  · unfold usersOf
    cases hru : acc.1.roomUsers r with
    | none => simp [hru]
    | some users =>
        dsimp only
        split
        · simp
        · simp

lemma discStep_at_room_deletes (sid r u : String) (acc : ServerState × List Emit)
    (hr : r ≠ sid) (hmap : acc.1.userSocketMap sid = some u)
    (hno : hasOtherConnections acc.1 r sid = false)
    (users : List String) (hru : acc.1.roomUsers r = some users)
    (hall : users.filter (fun x => decide (x ≠ u)) = []) :
    (discStep sid acc r).1.roomUsers r = none
  ∧ (discStep sid acc r).1.roomCodeMap r = none
  ∧ (discStep sid acc r).1.roomMessages r = none := by
  unfold discStep
  dsimp only
  rw [if_neg hr, if_neg (by rw [hno]; exact Bool.false_ne_true), hmap]
  dsimp only
  rw [hru]
  dsimp only
  rw [hall]
  simp

lemma mem_roomsOf (st : ServerState) (sid r : String) (hin : sid ∈ lookupRoom st r) :
    r ∈ roomsOf st sid := by
  unfold lookupRoom at hin
  cases hf : st.rooms.find? (fun p => decide (p.1 = r)) with
  | none =>
      rw [hf] at hin
      dsimp only at hin
      exact absurd hin (List.not_mem_nil sid)
  | some p =>
      rw [hf] at hin
      dsimp only at hin
      have hp1 : p.1 = r := by simpa using List.find?_some hf
      have hpm : p ∈ st.rooms := List.mem_of_find?_eq_some hf
      unfold roomsOf
      exact List.mem_map.mpr ⟨p, List.mem_filter.mpr ⟨hpm, by simpa using hin⟩, hp1⟩

lemma roomsOf_nodup (st : ServerState) (sid : String)
    (hkeys : (st.rooms.map Prod.fst).Nodup) : (roomsOf st sid).Nodup := by
  unfold roomsOf
  exact hkeys.sublist ((List.filter_sublist _).map Prod.fst)

/-- Full disconnect of a socket registered in room `r` with no sibling
connection for its username: exactly the one `disconnected` event for `r`
is emitted, the username leaves the membership, and if the username was the
only member the room's users, code and messages are all deleted. -/
lemma disconnect_no_other (st : ServerState) (sid r u : String)
    (hkeys : (st.rooms.map Prod.fst).Nodup)
    (hin : sid ∈ lookupRoom st r) (hmap : st.userSocketMap sid = some u) (hr : r ≠ sid)
    (hno : hasOtherConnections st r sid = false) :
    (disconnect st sid).2.filter (isDisconnectedTo r) =
        [⟨Target.room r (some sid), "disconnected", Payload.disconnected sid (some u)⟩]
  ∧ u ∉ usersOf (disconnect st sid).1 r
  ∧ (∀ users, st.roomUsers r = some users →
        users.filter (fun x => decide (x ≠ u)) = [] →
        (disconnect st sid).1.roomUsers r = none
      ∧ (disconnect st sid).1.roomCodeMap r = none
      ∧ (disconnect st sid).1.roomMessages r = none) := by
  obtain ⟨L1, L2, hdec⟩ := List.append_of_mem (mem_roomsOf st sid r hin)
  have hnd := roomsOf_nodup st sid hkeys
  rw [hdec] at hnd
  have hrL1 : r ∉ L1 := by
    intro hc
    exact List.disjoint_of_nodup_append hnd hc (List.mem_cons_self r L2)
  have hrL2 : r ∉ L2 := by
    have := (List.nodup_append.mp hnd).2.1
    exact (List.nodup_cons.mp this).1
  have hA1 := disc_fold_frame sid r L1 (st, ([] : List Emit)) hrL1
  have hA1rooms := disc_fold_rooms sid L1 (st, ([] : List Emit))
  have hA1map := disc_fold_userSocketMap sid L1 (st, ([] : List Emit))
  set A1 := L1.foldl (discStep sid) (st, ([] : List Emit)) with hA1def
  have hnoA1 : hasOtherConnections A1.1 r sid = false := by
    rw [hasOtherConnections_congr r sid hA1rooms hA1map]
    exact hno
  have hmapA1 : A1.1.userSocketMap sid = some u := by
    rw [hA1map]
    exact hmap
  have hstep := discStep_at_room_noOther sid r u A1 hr hmapA1 hnoA1
  have hA2frame := disc_fold_frame sid r L2 (discStep sid A1 r) hrL2
  have hsplit : (roomsOf st sid).foldl (discStep sid) (st, ([] : List Emit)) =
      L2.foldl (discStep sid) (discStep sid A1 r) := by
    rw [hdec, List.foldl_append, List.foldl_cons]
  have hsnd : (disconnect st sid).2 =
      (L2.foldl (discStep sid) (discStep sid A1 r)).2 := by
    show ((roomsOf st sid).foldl (discStep sid) (st, ([] : List Emit))).2 = _
    rw [hsplit]
  have hfst : (disconnect st sid).1.roomUsers =
      (L2.foldl (discStep sid) (discStep sid A1 r)).1.roomUsers := by
    show (removeFromAllRooms (unmapSocket
      ((roomsOf st sid).foldl (discStep sid) (st, ([] : List Emit))).1 sid) sid).roomUsers = _
    rw [hsplit]
    rfl
  have hfstc : (disconnect st sid).1.roomCodeMap =
      (L2.foldl (discStep sid) (discStep sid A1 r)).1.roomCodeMap := by
    show (removeFromAllRooms (unmapSocket
      ((roomsOf st sid).foldl (discStep sid) (st, ([] : List Emit))).1 sid) sid).roomCodeMap = _
    rw [hsplit]
    rfl
  have hfstm : (disconnect st sid).1.roomMessages =
      (L2.foldl (discStep sid) (discStep sid A1 r)).1.roomMessages := by
    show (removeFromAllRooms (unmapSocket
      ((roomsOf st sid).foldl (discStep sid) (st, ([] : List Emit))).1 sid) sid).roomMessages = _
    rw [hsplit]
    rfl
  refine ⟨?_, ?_, ?_⟩
  · rw [hsnd, hA2frame.2.2.2, hstep.1, List.filter_append, hA1.2.2.2]
    simp [isDisconnectedTo]
  · unfold usersOf
    rw [hfst, hA2frame.1]
    exact hstep.2
  · intro users hru hall
    have hruA1 : A1.1.roomUsers r = some users := by
      rw [hA1.1]
      exact hru
    have hdel := discStep_at_room_deletes sid r u A1 hr hmapA1 hnoA1 users hruA1 hall
    refine ⟨?_, ?_, ?_⟩
    · rw [hfst, hA2frame.1]
      exact hdel.1
    · rw [hfstc, hA2frame.2.1]
      exact hdel.2.1
    · rw [hfstm, hA2frame.2.2.1]
      exact hdel.2.2

/-- Full disconnect of a socket registered in room `r` while a sibling
connection for the same username remains: no `disconnected` event for `r`
is emitted and room `r`'s state is untouched. -/
lemma disconnect_has_other (st : ServerState) (sid r : String)
    (hkeys : (st.rooms.map Prod.fst).Nodup)
    (hin : sid ∈ lookupRoom st r) (hr : r ≠ sid)
    (hyes : hasOtherConnections st r sid = true) :
    (disconnect st sid).2.filter (isDisconnectedTo r) = []
  ∧ (disconnect st sid).1.roomUsers r = st.roomUsers r
  ∧ (disconnect st sid).1.roomCodeMap r = st.roomCodeMap r
  ∧ (disconnect st sid).1.roomMessages r = st.roomMessages r := by
  obtain ⟨L1, L2, hdec⟩ := List.append_of_mem (mem_roomsOf st sid r hin)
  have hnd := roomsOf_nodup st sid hkeys
  rw [hdec] at hnd
  have hrL1 : r ∉ L1 := by
    intro hc
    exact List.disjoint_of_nodup_append hnd hc (List.mem_cons_self r L2)
  have hrL2 : r ∉ L2 := by
    have := (List.nodup_append.mp hnd).2.1
    exact (List.nodup_cons.mp this).1
  have hA1 := disc_fold_frame sid r L1 (st, ([] : List Emit)) hrL1
  have hA1rooms := disc_fold_rooms sid L1 (st, ([] : List Emit))
  have hA1map := disc_fold_userSocketMap sid L1 (st, ([] : List Emit))
  set A1 := L1.foldl (discStep sid) (st, ([] : List Emit)) with hA1def
  have hyesA1 : hasOtherConnections A1.1 r sid = true := by
    rw [hasOtherConnections_congr r sid hA1rooms hA1map]
    exact hyes
  have hstep : discStep sid A1 r = A1 := discStep_at_room_hasOther sid r A1 hr hyesA1
  have hA2frame := disc_fold_frame sid r L2 (discStep sid A1 r) hrL2
  have hsplit : (roomsOf st sid).foldl (discStep sid) (st, ([] : List Emit)) =
      L2.foldl (discStep sid) (discStep sid A1 r) := by
    rw [hdec, List.foldl_append, List.foldl_cons]
  have hsnd : (disconnect st sid).2 =
      (L2.foldl (discStep sid) (discStep sid A1 r)).2 := by
    show ((roomsOf st sid).foldl (discStep sid) (st, ([] : List Emit))).2 = _
    rw [hsplit]
  refine ⟨?_, ?_, ?_, ?_⟩
  · rw [hsnd, hA2frame.2.2.2, hstep, hA1.2.2.2]
    rfl
  · show (removeFromAllRooms (unmapSocket
        ((roomsOf st sid).foldl (discStep sid) (st, ([] : List Emit))).1 sid) sid).roomUsers r = _
    rw [hsplit]
    show (L2.foldl (discStep sid) (discStep sid A1 r)).1.roomUsers r = _
    rw [hA2frame.1, hstep, hA1.1]
  · show (removeFromAllRooms (unmapSocket
        ((roomsOf st sid).foldl (discStep sid) (st, ([] : List Emit))).1 sid) sid).roomCodeMap r = _
    rw [hsplit]
    show (L2.foldl (discStep sid) (discStep sid A1 r)).1.roomCodeMap r = _
    rw [hA2frame.2.1, hstep, hA1.2.1]
  · show (removeFromAllRooms (unmapSocket
        ((roomsOf st sid).foldl (discStep sid) (st, ([] : List Emit))).1 sid) sid).roomMessages r = _
    rw [hsplit]
    show (L2.foldl (discStep sid) (discStep sid A1 r)).1.roomMessages r = _
    rw [hA2frame.2.2.1, hstep, hA1.2.2.1]

/-! ### C4 -/

/-- C4: when a socket registered in a room under a username disconnects, if
no other socket maps to that username in the room then exactly one
`disconnected` event for that room (carrying the socketId and username) is
emitted and the username leaves the membership; if another socket for the
username remains, no `disconnected` event for the room is emitted and the
room's users, code and messages are unchanged. -/
theorem c4_disconnect (st : ServerState) (sid r u : String)
    (hkeys : (st.rooms.map Prod.fst).Nodup)
    (hin : sid ∈ lookupRoom st r) (hmap : st.userSocketMap sid = some u) (hr : r ≠ sid) :
    (hasOtherConnections st r sid = false →
        ((disconnect st sid).2.filter (isDisconnectedTo r)).length = 1
      ∧ (⟨Target.room r (some sid), "disconnected",
          Payload.disconnected sid (some u)⟩ : Emit) ∈ (disconnect st sid).2
      ∧ u ∉ usersOf (disconnect st sid).1 r)
  ∧ (hasOtherConnections st r sid = true →
        ((disconnect st sid).2.filter (isDisconnectedTo r)).length = 0
      ∧ (disconnect st sid).1.roomUsers r = st.roomUsers r
      ∧ (disconnect st sid).1.roomCodeMap r = st.roomCodeMap r
      ∧ (disconnect st sid).1.roomMessages r = st.roomMessages r) := by
  constructor
  · intro hno
    obtain ⟨hfil, hnot, _⟩ := disconnect_no_other st sid r u hkeys hin hmap hr hno
    refine ⟨by rw [hfil]; rfl, ?_, hnot⟩
    exact List.mem_of_mem_filter (p := isDisconnectedTo r)
      (by rw [hfil]; exact List.mem_singleton.mpr rfl)
  · intro hyes
    obtain ⟨hfil, h1, h2, h3⟩ := disconnect_has_other st sid r hkeys hin hr hyes
    exact ⟨by rw [hfil]; rfl, h1, h2, h3⟩

/-- Two live sockets registered to the same username in one room (the state
a reconnect race would have to produce). -/
def demoSiblings : ServerState :=
  { userSocketMap := fun s => if s = "s1" ∨ s = "s2" then some "alice" else none,
    roomCodeMap := fun r => if r = "r1" then some "x" else none,
    roomUsers := fun r => if r = "r1" then some ["alice"] else none,
    roomMessages := fun _ => none,
    rooms := [("r1", ["s1", "s2"])] }

theorem c4_witness :
    (hasOtherConnections demoTwo "r1" "s1" = false
  ∧ ((disconnect demoTwo "s1").2.filter (isDisconnectedTo "r1")).length = 1
  ∧ "alice" ∉ usersOf (disconnect demoTwo "s1").1 "r1")
  ∧ (hasOtherConnections demoSiblings "r1" "s1" = true
  ∧ ((disconnect demoSiblings "s1").2.filter (isDisconnectedTo "r1")).length = 0
  ∧ (disconnect demoSiblings "s1").1.roomUsers "r1" = demoSiblings.roomUsers "r1") :=
  ⟨⟨by decide,
    ((c4_disconnect demoTwo "s1" "r1" "alice" (by decide) (by decide) (by decide)
        (by decide)).1 (by decide)).1,
    ((c4_disconnect demoTwo "s1" "r1" "alice" (by decide) (by decide) (by decide)
        (by decide)).1 (by decide)).2.2⟩,
   ⟨by decide,
    ((c4_disconnect demoSiblings "s1" "r1" "alice" (by decide) (by decide) (by decide)
        (by decide)).2 (by decide)).1,
    ((c4_disconnect demoSiblings "s1" "r1" "alice" (by decide) (by decide) (by decide)
        (by decide)).2 (by decide)).2.1⟩⟩

/-! ### C1 (amended) -/

/-- C1 (amended): when the last member's final connection disconnects, the
room's users, codeBuffer and messages are deleted together in that step; but
the state-existence "only if membership is non-empty" direction fails:
`codeChange` stores code for a room without touching (or requiring)
membership. -/
theorem c1_amended :
    (∀ (st : ServerState) (sid r u : String) (users : List String),
        (st.rooms.map Prod.fst).Nodup →
        sid ∈ lookupRoom st r → st.userSocketMap sid = some u → r ≠ sid →
        hasOtherConnections st r sid = false →
        st.roomUsers r = some users → (∀ x ∈ users, x = u) →
        (disconnect st sid).1.roomUsers r = none
      ∧ (disconnect st sid).1.roomCodeMap r = none
      ∧ (disconnect st sid).1.roomMessages r = none)
  ∧ (∀ (st : ServerState) (sid r c : String),
        (handleCodeChange st sid r c).1.roomCodeMap r = some c
      ∧ (handleCodeChange st sid r c).1.roomUsers r = st.roomUsers r) := by
  constructor
  · intro st sid r u users hkeys hin hmap hr hno hru hall
    refine (disconnect_no_other st sid r u hkeys hin hmap hr hno).2.2 users hru ?_
    rw [List.filter_eq_nil_iff]
    intro x hx
    simp [hall x hx]
  · intro st sid r c
    exact ⟨by simp [handleCodeChange, handleCodeChangeRaw, jsKey], rfl⟩

theorem c1_witness :
    ((disconnect demoOne "s1").1.roomUsers "r1" = none
  ∧ (disconnect demoOne "s1").1.roomCodeMap "r1" = none
  ∧ (disconnect demoOne "s1").1.roomMessages "r1" = none)
  ∧ (handleCodeChange initState "sX" "rZ" "q").1.roomCodeMap "rZ" = some "q" :=
  ⟨c1_amended.1 demoOne "s1" "r1" "alice" ["alice"] (by decide) (by decide) (by decide)
      (by decide) (by decide) (by decide) (by decide),
   (c1_amended.2 initState "sX" "rZ" "q").1⟩

/-! ### C6: membership tracks registration across two connections -/

/-- One operation of the C6 scenario: a join or disconnect of one of two
fixed sockets (selected by the Bool) in one fixed room under one username. -/
inductive COp where
  | jn : Bool → COp
  | dc : Bool → COp

/-- Select socket `c1` or `c2`. -/
def pick (c1 c2 : String) : Bool → String
  | true => c1
  | false => c2

/-- Run one scenario operation against the server. -/
def runOp (r u c1 c2 : String) (st : ServerState) : COp → ServerState
  | COp.jn b => (handleJoin st (pick c1 c2 b) r u).1
  | COp.dc b => (disconnect st (pick c1 c2 b)).1

/-- Run a scenario from the empty server state. -/
def runOps (r u c1 c2 : String) (ops : List COp) : ServerState :=
  ops.foldl (runOp r u c1 c2) initState

/-- The inductive invariant of the two-connection scenario. -/
def InvC6 (r u c1 c2 : String) (st : ServerState) : Prop :=
  (st.rooms.map Prod.fst = [] ∨ st.rooms.map Prod.fst = [r])
  ∧ (∀ s ∈ lookupRoom st r, s = c1 ∨ s = c2)
  ∧ (st.userSocketMap c1 = some u ↔ c1 ∈ lookupRoom st r)
  ∧ (st.userSocketMap c2 = some u ↔ c2 ∈ lookupRoom st r)
  ∧ (∀ x ∈ usersOf st r, x = u)
  ∧ (u ∈ usersOf st r ↔ (c1 ∈ lookupRoom st r ∨ c2 ∈ lookupRoom st r))

lemma invC6_symm {r u c1 c2 : String} {st : ServerState}
    (h : InvC6 r u c1 c2 st) : InvC6 r u c2 c1 st := by
  obtain ⟨h1, h2, h3, h4, h5, h6⟩ := h
  exact ⟨h1, fun s hs => (h2 s hs).symm, h4, h3, h5, by rw [h6]; exact or_comm⟩

lemma invC6_init (r u c1 c2 : String) : InvC6 r u c1 c2 initState := by
  refine ⟨Or.inl rfl, ?_, ?_, ?_, ?_, ?_⟩ <;>
    simp [initState, lookupRoom, usersOf]

/-! Key-preservation lemmas for the room table. -/

lemma keys_leaveRoom (st : ServerState) (ex r0 : String) :
    (leaveRoom st ex r0).rooms.map Prod.fst = st.rooms.map Prod.fst := by
  unfold leaveRoom
  dsimp only
  rw [List.map_map]
  apply List.map_congr_left
  intro p _
  by_cases h : p.1 = r0 <;> simp [h]

lemma keys_removeFromAllRooms (st : ServerState) (s : String) :
    (removeFromAllRooms st s).rooms.map Prod.fst = st.rooms.map Prod.fst := by
  unfold removeFromAllRooms
  dsimp only
  rw [List.map_map]
  apply List.map_congr_left
  intro p _
  rfl

lemma keys_evict_fold (r0 u nsid : String) :
    ∀ (L : List String) (st : ServerState),
      ((L.foldl (evictStep r0 u nsid) st).rooms).map Prod.fst =
        st.rooms.map Prod.fst := by
  intro L
  induction L with
  | nil => intro st; rfl
  | cons a t ih =>
      intro st
      rw [List.foldl_cons, ih]
      unfold evictStep
      split
      · rw [rooms_unmapSocket, keys_leaveRoom]
      · rfl

lemma keys_setRoomList (rooms : List (String × List String)) (r0 : String)
    (l : List String) :
    (setRoomList rooms r0 l).map Prod.fst = rooms.map Prod.fst ∨
    (setRoomList rooms r0 l).map Prod.fst = rooms.map Prod.fst ++ [r0] := by
  unfold setRoomList
  split
  · left
    rw [List.map_map]
    apply List.map_congr_left
    intro p _
    by_cases h : p.1 = r0 <;> simp [h]
  · right
    simp

/-- With at most the single key `r` in the table, the table is exactly the
entry found by `lookupRoom`. -/
lemma rooms_eq_of_keys_single (st : ServerState) (r : String)
    (h : st.rooms.map Prod.fst = [r]) :
    st.rooms = [(r, lookupRoom st r)] := by
  cases hr : st.rooms with
  | nil => rw [hr] at h; simp at h
  | cons p t =>
      rw [hr] at h
      simp only [List.map_cons, List.cons.injEq] at h
      have ht : t = [] := List.map_eq_nil_iff.mp h.2
      subst ht
      have hp : p.1 = r := h.1
      have : lookupRoom st r = p.2 := by
        unfold lookupRoom
        rw [hr]
        simp [List.find?_cons, hp]
      rw [this, ← hp]

lemma roomsOf_shape_nil (st : ServerState) (c : String)
    (h : st.rooms.map Prod.fst = []) : roomsOf st c = [] := by
  have : st.rooms = [] := List.map_eq_nil_iff.mp h
  unfold roomsOf
  rw [this]
  rfl

lemma roomsOf_shape_single (st : ServerState) (r c : String)
    (h : st.rooms.map Prod.fst = [r]) :
    roomsOf st c = if c ∈ lookupRoom st r then [r] else [] := by
  have hs := rooms_eq_of_keys_single st r h
  unfold roomsOf
  rw [hs]
  by_cases hc : c ∈ lookupRoom st r
  · simp [List.filter, hc]
  · simp [List.filter, hc]

/-- Membership in a room only shrinks across the eviction loop. -/
lemma evict_fold_lookupRoom_subset (r0 u nsid x : String) :
    ∀ (L : List String) (st : ServerState),
      x ∈ lookupRoom (L.foldl (evictStep r0 u nsid) st) r0 → x ∈ lookupRoom st r0 := by
  intro L
  induction L with
  | nil => intro st h; exact h
  | cons a t ih =>
      intro st h
      rw [List.foldl_cons] at h
      have h2 := ih _ h
      revert h2
      unfold evictStep
      split
      · rw [lookupRoom_unmapSocket, lookupRoom_leaveRoom, if_pos rfl]
        intro h2
        exact (List.mem_filter.mp h2).1
      · exact id

/-- Each eviction step preserves "registered iff in the room" for any socket
other than the joining one. -/
lemma evictStep_preserves_reg (r0 u nsid o : String) (st : ServerState) (ex : String)
    (h : st.userSocketMap o = some u ↔ o ∈ lookupRoom st r0) :
    ((evictStep r0 u nsid st ex).userSocketMap o = some u ↔
      o ∈ lookupRoom (evictStep r0 u nsid st ex) r0) := by
  unfold evictStep
  split
  · rw [lookupRoom_unmapSocket, lookupRoom_leaveRoom, if_pos rfl]
    by_cases he : o = ex
    · subst he
      simp only [unmapSocket, userSocketMap_leaveRoom]
      simp [List.mem_filter]
    · simp only [unmapSocket, userSocketMap_leaveRoom]
      rw [if_neg he, h]
      simp [List.mem_filter, he]
  · exact h

lemma evict_fold_preserves_reg (r0 u nsid o : String) :
    ∀ (L : List String) (st : ServerState),
      (st.userSocketMap o = some u ↔ o ∈ lookupRoom st r0) →
      ((L.foldl (evictStep r0 u nsid) st).userSocketMap o = some u ↔
        o ∈ lookupRoom (L.foldl (evictStep r0 u nsid) st) r0) := by
  intro L
  induction L with
  | nil => intro st h; exact h
  | cons a t ih =>
      intro st h
      rw [List.foldl_cons]
      exact ih _ (evictStep_preserves_reg r0 u nsid o st a h)

@[simp] lemma userSocketMap_removeFromAllRooms (st : ServerState) (s : String) :
    (removeFromAllRooms st s).userSocketMap = st.userSocketMap := rfl

lemma keys_setRoomList_eq (rooms : List (String × List String)) (r0 : String)
    (l : List String) :
    (setRoomList rooms r0 l).map Prod.fst =
      if r0 ∈ rooms.map Prod.fst then rooms.map Prod.fst
      else rooms.map Prod.fst ++ [r0] := by
  unfold setRoomList
  by_cases h : rooms.any (fun p => decide (p.1 = r0))
  · have hm : r0 ∈ rooms.map Prod.fst := by
      rcases List.any_eq_true.mp h with ⟨p, hp, hp1⟩
      exact List.mem_map.mpr ⟨p, hp, by simpa using hp1⟩
    rw [if_pos h, if_pos hm, List.map_map]
    apply List.map_congr_left
    intro p _
    by_cases hh : p.1 = r0 <;> simp [hh]
  · have hm : r0 ∉ rooms.map Prod.fst := by
      intro hc
      rcases List.mem_map.mp hc with ⟨p, hp, hp1⟩
      exact h (List.any_eq_true.mpr ⟨p, hp, by simpa using hp1⟩)
    rw [if_neg h, if_neg hm]
    simp

lemma lookupRoom_of_keys_nil (st : ServerState) (r : String)
    (h : st.rooms.map Prod.fst = []) : lookupRoom st r = [] := by
  have : st.rooms = [] := List.map_eq_nil_iff.mp h
  unfold lookupRoom
  rw [this]
  rfl

lemma invC6_join1 (r u c1 c2 : String) (h12 : c1 ≠ c2) (st : ServerState)
    (hInv : InvC6 r u c1 c2 st) : InvC6 r u c1 c2 (handleJoin st c1 r u).1 := by
  obtain ⟨h1, h2, h3, h4, h5, h6⟩ := hInv
  have hlook : lookupRoom (handleJoin st c1 r u).1 r =
      (if c1 ∈ lookupRoom ((lookupRoom st r).foldl (evictStep r u c1) st) r
       then lookupRoom ((lookupRoom st r).foldl (evictStep r u c1) st) r
       else lookupRoom ((lookupRoom st r).foldl (evictStep r u c1) st) r ++ [c1]) := by
    rw [handleJoin_lookupRoom, if_pos rfl]
  have hmem_c1 : c1 ∈ lookupRoom (handleJoin st c1 r u).1 r := by
    rw [hlook]
    split
    · assumption
    · exact List.mem_append_right _ (List.mem_singleton.mpr rfl)
  have hsubF : ∀ x, x ∈ lookupRoom ((lookupRoom st r).foldl (evictStep r u c1) st) r →
      x ∈ lookupRoom st r :=
    fun x hx => evict_fold_lookupRoom_subset r u c1 x (lookupRoom st r) st hx
  have hmem_iff : ∀ x, x ≠ c1 →
      (x ∈ lookupRoom (handleJoin st c1 r u).1 r ↔
       x ∈ lookupRoom ((lookupRoom st r).foldl (evictStep r u c1) st) r) := by
    intro x hx
    rw [hlook]
    split
    · exact Iff.rfl
    · constructor
      · intro h
        rcases List.mem_append.mp h with h | h
        · exact h
        · exact absurd (List.mem_singleton.mp h) hx
      · exact fun h => List.mem_append_left _ h
  have husers : (handleJoin st c1 r u).1.roomUsers r =
      some (if u ∈ usersOf st r then usersOf st r else usersOf st r ++ [u]) := by
    rw [handleJoin_roomUsers, if_pos rfl]
  refine ⟨?_, ?_, ?_, ?_, ?_, ?_⟩
  · -- shape
    have hkeysF : (((lookupRoom st r).foldl (evictStep r u c1) st).rooms).map Prod.fst =
        st.rooms.map Prod.fst := keys_evict_fold r u c1 _ st
    have hrooms := handleJoin_rooms st c1 r u
    rw [hrooms]
    unfold joinRoom
    dsimp only
    rw [keys_setRoomList_eq, rooms_mapSocket, hkeysF]
    cases h1 with
    | inl h =>
        rw [h]
        simp
    | inr h =>
        rw [h]
        simp
  · -- members ⊆ {c1, c2}
    intro s hs
    by_cases hsc : s = c1
    · exact Or.inl hsc
    · exact h2 s (hsubF s ((hmem_iff s hsc).mp hs))
  · -- c1 registered iff in room: both sides hold
    constructor
    · intro _
      exact hmem_c1
    · intro _
      rw [handleJoin_userSocketMap, if_pos rfl]
  · -- c2's registration equivalence is preserved
    have hreg := evict_fold_preserves_reg r u c1 c2 (lookupRoom st r) st h4
    rw [handleJoin_userSocketMap, if_neg (fun h => h12 h.symm)]
    rw [hmem_iff c2 (fun h => h12 h.symm)]
    exact hreg
  · -- members of the username set are all u
    intro x hx
    unfold usersOf at hx
    rw [husers, Option.getD_some] at hx
    revert hx
    split
    · exact fun hx => h5 x hx
    · intro hx
      rcases List.mem_append.mp hx with h | h
      · exact h5 x h
      · exact List.mem_singleton.mp h
  · -- u present iff someone is in the room: both sides hold
    have hu : u ∈ usersOf (handleJoin st c1 r u).1 r := by
      unfold usersOf
      rw [husers, Option.getD_some]
      split
      · assumption
      · exact List.mem_append_right _ (List.mem_singleton.mpr rfl)
    exact iff_of_true hu (Or.inl hmem_c1)

lemma invC6_disc1 (r u c1 c2 : String) (h12 : c1 ≠ c2) (hr1 : r ≠ c1) (st : ServerState)
    (hInv : InvC6 r u c1 c2 st) : InvC6 r u c1 c2 (disconnect st c1).1 := by
  obtain ⟨h1, h2, h3, h4, h5, h6⟩ := hInv
  have h21 : c2 ≠ c1 := fun h => h12 h.symm
  have hGrooms := disc_fold_rooms c1 (roomsOf st c1) (st, ([] : List Emit))
  have hGmap := disc_fold_userSocketMap c1 (roomsOf st c1) (st, ([] : List Emit))
  have hmap' : ∀ s, (disconnect st c1).1.userSocketMap s =
      if s = c1 then none else st.userSocketMap s := by
    intro s
    show (removeFromAllRooms (unmapSocket
        ((roomsOf st c1).foldl (discStep c1) (st, ([] : List Emit))).1 c1) c1).userSocketMap s = _
    rw [userSocketMap_removeFromAllRooms]
    show (if s = c1 then none else
        ((roomsOf st c1).foldl (discStep c1) (st, ([] : List Emit))).1.userSocketMap s) = _
    rw [hGmap]
  have hlook' : ∀ r', lookupRoom (disconnect st c1).1 r' =
      (lookupRoom st r').filter (fun x => decide (x ≠ c1)) := by
    intro r'
    show lookupRoom (removeFromAllRooms (unmapSocket
        ((roomsOf st c1).foldl (discStep c1) (st, ([] : List Emit))).1 c1) c1) r' = _
    rw [lookupRoom_removeFromAllRooms, lookupRoom_unmapSocket,
        lookupRoom_congr r'
          (show (((roomsOf st c1).foldl (discStep c1) (st, ([] : List Emit))).1).rooms = st.rooms
            from hGrooms)]
  have hshape : (disconnect st c1).1.rooms.map Prod.fst = st.rooms.map Prod.fst := by
    show ((removeFromAllRooms (unmapSocket
        ((roomsOf st c1).foldl (discStep c1) (st, ([] : List Emit))).1 c1) c1)).rooms.map Prod.fst = _
    rw [keys_removeFromAllRooms, rooms_unmapSocket, hGrooms]
  have hshapeF : (disconnect st c1).1.rooms.map Prod.fst = [] ∨
      (disconnect st c1).1.rooms.map Prod.fst = [r] := by
    rw [hshape]
    exact h1
  have hc1iff : ((disconnect st c1).1.userSocketMap c1 = some u ↔
      c1 ∈ lookupRoom (disconnect st c1).1 r) := by
    constructor
    · intro hcon
      rw [hmap' c1] at hcon
      simp at hcon
    · intro hcon
      rw [hlook' r] at hcon
      have := (List.mem_filter.mp hcon).2
      simp at this
  have hc2iff : ((disconnect st c1).1.userSocketMap c2 = some u ↔
      c2 ∈ lookupRoom (disconnect st c1).1 r) := by
    rw [hmap' c2, if_neg (fun h => h12 h.symm), hlook' r, h4]
    constructor
    · intro hm
      exact List.mem_filter.mpr ⟨hm, by simp [h21]⟩
    · intro hm
      exact (List.mem_filter.mp hm).1
  have hmemsub : ∀ s ∈ lookupRoom (disconnect st c1).1 r, s = c1 ∨ s = c2 := by
    intro s hs
    rw [hlook' r] at hs
    exact h2 s (List.mem_filter.mp hs).1
  by_cases hc : c1 ∈ lookupRoom st r
  · -- c1 was in the room
    have hkeys1 : st.rooms.map Prod.fst = [r] := by
      cases h1 with
      | inl h =>
          rw [lookupRoom_of_keys_nil st r h] at hc
          exact absurd hc (List.not_mem_nil c1)
      | inr h => exact h
    have hro : roomsOf st c1 = [r] := by
      rw [roomsOf_shape_single st r c1 hkeys1, if_pos hc]
    have hmapc1 : st.userSocketMap c1 = some u := h3.mpr hc
    have hGdef : ((roomsOf st c1).foldl (discStep c1) (st, ([] : List Emit))) =
        discStep c1 (st, ([] : List Emit)) r := by
      rw [hro]
      rfl
    by_cases hother : hasOtherConnections st r c1 = true
    · -- a sibling connection for the username remains: state untouched
      have hexists : c2 ∈ lookupRoom st r ∧ st.userSocketMap c2 = some u := by
        unfold hasOtherConnections at hother
        rcases List.any_eq_true.mp hother with ⟨s, hs, hsd⟩
        have hsd' := of_decide_eq_true hsd
        have hsc2 : s = c2 := by
          rcases h2 s hs with h | h
          · exact absurd h hsd'.1
          · exact h
        subst hsc2
        exact ⟨hs, by rw [hsd'.2, hmapc1]⟩
      have hstep : discStep c1 (st, ([] : List Emit)) r = (st, ([] : List Emit)) :=
        discStep_at_room_hasOther c1 r (st, ([] : List Emit)) hr1 hother
      have hru : (disconnect st c1).1.roomUsers r = st.roomUsers r := by
        show ((removeFromAllRooms (unmapSocket
            ((roomsOf st c1).foldl (discStep c1) (st, ([] : List Emit))).1 c1) c1)).roomUsers r = _
        rw [roomUsers_removeFromAllRooms, roomUsers_unmapSocket, hGdef, hstep]
      refine ⟨hshapeF, hmemsub, hc1iff, hc2iff, ?_, ?_⟩
      · intro x hx
        unfold usersOf at hx
        rw [hru] at hx
        exact h5 x hx
      · unfold usersOf
        rw [hru]
        show u ∈ usersOf st r ↔ _
        rw [h6, hlook' r]
        constructor
        · intro _
          right
          exact List.mem_filter.mpr ⟨hexists.1, by simp [h21]⟩
        · intro _
          exact Or.inl hc
    · -- no sibling: the room is garbage-collected
      have hof : hasOtherConnections st r c1 = false := by
        revert hother
        cases hasOtherConnections st r c1 <;> simp
      cases hruSt : st.roomUsers r with
      | none =>
          exfalso
          have hin := h6.mpr (Or.inl hc)
          unfold usersOf at hin
          rw [hruSt] at hin
          simp at hin
      | some users =>
          have hall : users.filter (fun x => decide (x ≠ u)) = [] := by
            rw [List.filter_eq_nil_iff]
            intro x hx
            have hxu : x = u := h5 x (by unfold usersOf; rw [hruSt]; exact hx)
            simp [hxu]
          have hdel := discStep_at_room_deletes c1 r u (st, ([] : List Emit)) hr1
            hmapc1 hof users hruSt hall
          have hru : (disconnect st c1).1.roomUsers r = none := by
            show ((removeFromAllRooms (unmapSocket
                ((roomsOf st c1).foldl (discStep c1) (st, ([] : List Emit))).1 c1) c1)).roomUsers r = _
            rw [roomUsers_removeFromAllRooms, roomUsers_unmapSocket, hGdef]
            exact hdel.1
          have hc2n : c2 ∉ lookupRoom st r := by
            intro hcon
            have hm2 := h4.mpr hcon
            apply hother
            unfold hasOtherConnections
            apply List.any_eq_true.mpr
            refine ⟨c2, hcon, ?_⟩
            simp [h21, hm2, hmapc1]
          refine ⟨hshapeF, hmemsub, hc1iff, hc2iff, ?_, ?_⟩
          · intro x hx
            unfold usersOf at hx
            rw [hru] at hx
            simp at hx
          · apply iff_of_false
            · unfold usersOf
              rw [hru]
              simp
            · rw [hlook' r]
              rintro (hcon | hcon)
              · have := (List.mem_filter.mp hcon).2
                simp at this
              · exact hc2n (List.mem_filter.mp hcon).1
  · -- c1 was not in the room: nothing happens to room r
    have hro : roomsOf st c1 = [] := by
      cases h1 with
      | inl h => exact roomsOf_shape_nil st c1 h
      | inr h => rw [roomsOf_shape_single st r c1 h, if_neg hc]
    have hru : (disconnect st c1).1.roomUsers r = st.roomUsers r := by
      show ((removeFromAllRooms (unmapSocket
          ((roomsOf st c1).foldl (discStep c1) (st, ([] : List Emit))).1 c1) c1)).roomUsers r = _
      rw [roomUsers_removeFromAllRooms, roomUsers_unmapSocket, hro]
      rfl
    refine ⟨hshapeF, hmemsub, hc1iff, hc2iff, ?_, ?_⟩
    · intro x hx
      unfold usersOf at hx
      rw [hru] at hx
      exact h5 x hx
    · unfold usersOf
      rw [hru]
      show u ∈ usersOf st r ↔ _
      rw [h6, hlook' r]
      constructor
      · rintro (hcon | hcon)
        · exact absurd hcon hc
        · right
          exact List.mem_filter.mpr ⟨hcon, by simp [h21]⟩
      · rintro (hcon | hcon)
        · have := (List.mem_filter.mp hcon).2
          simp at this
        · right
          exact (List.mem_filter.mp hcon).1

lemma invC6_run (r u c1 c2 : String) (h12 : c1 ≠ c2) (hr1 : r ≠ c1) (hr2 : r ≠ c2) :
    ∀ (ops : List COp) (st : ServerState), InvC6 r u c1 c2 st →
      InvC6 r u c1 c2 (ops.foldl (runOp r u c1 c2) st) := by
  intro ops
  induction ops with
  | nil => exact fun st h => h
  | cons op t ih =>
      intro st h
      rw [List.foldl_cons]
      apply ih
      cases op with
      | jn b =>
          cases b with
          | true => exact invC6_join1 r u c1 c2 h12 st h
          | false =>
              exact invC6_symm
                (invC6_join1 r u c2 c1 (fun hh => h12 hh.symm) st (invC6_symm h))
      | dc b =>
          cases b with
          | true => exact invC6_disc1 r u c1 c2 h12 hr1 st h
          | false =>
              exact invC6_symm
                (invC6_disc1 r u c2 c1 (fun hh => h12 hh.symm) hr2 st (invC6_symm h))

/-- C6: over any sequence of join/disconnect operations of two distinct
connections under one username in one room (whose key is not one of the
socket ids, as socket.io's personal rooms share the namespace), the room's
membership contains the username iff at least one of the two connections is
currently in the room and registered to that username. -/
theorem c6_membership_iff_registration (r u c1 c2 : String)
    (h12 : c1 ≠ c2) (hr1 : r ≠ c1) (hr2 : r ≠ c2) (ops : List COp) :
    (u ∈ usersOf (runOps r u c1 c2 ops) r ↔
      ((c1 ∈ lookupRoom (runOps r u c1 c2 ops) r ∧
        (runOps r u c1 c2 ops).userSocketMap c1 = some u)
     ∨ (c2 ∈ lookupRoom (runOps r u c1 c2 ops) r ∧
        (runOps r u c1 c2 ops).userSocketMap c2 = some u))) := by
  unfold runOps
  obtain ⟨h1, h2, h3, h4, h5, h6⟩ :=
    invC6_run r u c1 c2 h12 hr1 hr2 ops initState (invC6_init r u c1 c2)
  rw [h6]
  constructor
  · rintro (h | h)
    · exact Or.inl ⟨h, h3.mpr h⟩
    · exact Or.inr ⟨h, h4.mpr h⟩
  · rintro (⟨h, _⟩ | ⟨h, _⟩)
    · exact Or.inl h
    · exact Or.inr h

theorem c6_witness :
    "alice" ∈ usersOf
        (runOps "r1" "alice" "s1" "s2" [COp.jn true, COp.jn false, COp.dc false]) "r1" ↔
      (("s1" ∈ lookupRoom
          (runOps "r1" "alice" "s1" "s2" [COp.jn true, COp.jn false, COp.dc false]) "r1" ∧
        (runOps "r1" "alice" "s1" "s2"
          [COp.jn true, COp.jn false, COp.dc false]).userSocketMap "s1" = some "alice")
     ∨ ("s2" ∈ lookupRoom
          (runOps "r1" "alice" "s1" "s2" [COp.jn true, COp.jn false, COp.dc false]) "r1" ∧
        (runOps "r1" "alice" "s1" "s2"
          [COp.jn true, COp.jn false, COp.dc false]).userSocketMap "s2" = some "alice")) :=
  c6_membership_iff_registration "r1" "alice" "s1" "s2" (by decide) (by decide) (by decide)
    [COp.jn true, COp.jn false, COp.dc false]
